import Mathlib

/-!
Verification development for the transactional core in `src/realm/transaction.cpp`
(rucksack-core). We shallowly embed the Transaction state machine, its
read-lock/version bookkeeping, the async-commit coordinator, the bounded
copy-on-write tree walk (`NodeTree::trv` / `Transaction::cow_outliers`) and the
full-content replication routine (`Transaction::replicate`), and prove or refute
the specified properties.

Conventions of the embedding:
- machine integers become `Nat`/`Int`; versions are `Nat`;
- the shared database handle (`DB`) is modelled by the pieces of its state the
  code observes: the latest committed snapshot and a counter used to make each
  grabbed read lock distinguishable (`m_reader_idx` of a fresh lock);
- externally observable actions (grabbing / releasing / leaking read locks,
  releasing the write lock, handing a flush to the worker, invoking the
  user callback) are recorded in an event trace, appended in program order;
- C++ exceptions become `Except Err`; the guard throws in the source happen
  before any mutation, which the model mirrors;
- the fallible external flush (`GroupCommitter::commit`) is modelled by a
  boolean parameter `flushOk` passed to the operations that can reach it;
- condition-variable waits (`prepare_for_close` in `Requesting`/`Syncing`)
  are modelled by their sequential post-wait effect;
- `REALM_ASSERT` statements are comments in the model; theorems carry the
  corresponding hypotheses where needed.
-/

set_option autoImplicit false

namespace RealmTxn

/-- `DB::TransactStage`. `Ready` is `transact_Ready`, the NotAttached stage. -/
inductive TransactStage where
  | Ready
  | Reading
  | Writing
  | Frozen
deriving DecidableEq, Repr

/-- `Transaction::AsyncState` (the async-commit coordinator sub-state-machine). -/
inductive AsyncState where
  | Idle
  | Requesting
  | HasLock
  | HasCommits
  | Syncing
deriving DecidableEq, Repr

/-- `DB::ReadLockInfo`: a pinned (version, root offset, file size, slot index). -/
structure ReadLockInfo where
  m_version : Nat
  m_top_ref : Nat
  m_file_size : Nat
  m_reader_idx : Nat
deriving DecidableEq, Repr

/-- Errors surfaced by the modelled operations. `WrongTransactionState` is the
exception type the source throws on stage-contract violations (the spec calls
it InvalidState). -/
inductive Err where
  | WrongTransactionState (msg : String)
  | BrokenInvariant (msg : String)
  | StaleAccessor
  | CommitFailed
deriving DecidableEq, Repr

/-- Externally observable actions of a Transaction, recorded in program order.
`endWrite` stands for both `db->end_write_on_correct_thread()` and
`db->async_end_write()` (both release the exclusive write lock). -/
inductive Event where
  | grabLock (l : ReadLockInfo)
  | releaseLock (l : ReadLockInfo)
  | leakLock (l : ReadLockInfo)
  | endWrite
  | resetFreeSpaceTracking
  | syncToDisk
  | callbackInvoked
deriving DecidableEq, Repr

/-- The slice of the shared `DB` state the code in `transaction.cpp` observes:
the latest committed snapshot, and a counter delivering fresh reader slots so
that distinct grabs of the same version stay distinguishable. -/
structure DBState where
  latestVersion : Nat
  latestTopRef : Nat
  latestFileSize : Nat
  grabCount : Nat
deriving DecidableEq, Repr

/-- The Transaction fields used by `transaction.cpp`. `attached` models
`Group::is_attached()` (cleared by `detach()`); `allocCommitSize` models
`m_alloc.get_commit_size()`. -/
structure Txn where
  attached : Bool
  m_transact_stage : TransactStage
  m_read_lock : ReadLockInfo
  m_oldest_version_not_persisted : Option ReadLockInfo
  m_async_stage : AsyncState
  m_async_commit_has_failed : Bool
  m_commit_exception : Option Err
  m_waiting_for_sync : Bool
  allocCommitSize : Nat
deriving DecidableEq, Repr

/-- A Transaction together with its database handle and the event trace. -/
structure W where
  txn : Txn
  db : DBState
  events : List Event
deriving DecidableEq, Repr

/-- `db->grab_read_lock(ReadLockInfo::Live, VersionID())`: pins the latest
snapshot and returns a lock carrying a fresh reader slot. -/
def grab_read_lock (w : W) : ReadLockInfo × W :=
  let l : ReadLockInfo :=
    ⟨w.db.latestVersion, w.db.latestTopRef, w.db.latestFileSize, w.db.grabCount⟩
  (l, { w with db := { w.db with grabCount := w.db.grabCount + 1 },
               events := w.events ++ [Event.grabLock l] })

/-- `db->release_read_lock(l)`. -/
def release_read_lock (l : ReadLockInfo) (w : W) : W :=
  { w with events := w.events ++ [Event.releaseLock l] }

/-- `db->leak_read_lock(l)`: deliberately omits the unpin. -/
def leak_read_lock (l : ReadLockInfo) (w : W) : W :=
  { w with events := w.events ++ [Event.leakLock l] }

/-- `db->end_write_on_correct_thread()` / `db->async_end_write()`. -/
def end_write (w : W) : W :=
  { w with events := w.events ++ [Event.endWrite] }

/-- `db->do_commit(*this)`: publishes a new, strictly larger version and
returns it. -/
def do_commit (w : W) : W × Nat :=
  let v := w.db.latestVersion + 1
  ({ w with db := { w.db with latestVersion := v } }, v)

/-- `Transaction::get_commit_size()`: the number of bytes written so far, zero
unless the transaction is in the Writing stage. -/
def get_commit_size (w : W) : Nat :=
  if w.txn.m_transact_stage = TransactStage.Writing then w.txn.allocCommitSize else 0

/-- Modelled from the spec: `Transaction::holds_write_mutex()` is declared in
`transaction.hpp`, which is not part of the sources; per the spec, rollback
"releases write-lock ownership unless the async coordinator currently holds
it", i.e. the coordinator holds the write mutex exactly in the states where it
owns the lock with possible pending commits. -/
def holds_write_mutex (t : Txn) : Bool :=
  match t.m_async_stage with
  | AsyncState.HasLock => true
  | AsyncState.HasCommits => true
  | _ => false

/-- `Transaction::promote_to_async()` (transaction.cpp:591). -/
def promote_to_async (w : W) : W :=
  if w.txn.m_async_stage = AsyncState.Idle then
    { w with txn := { w.txn with m_async_stage := AsyncState.HasLock } }
  else w

/-- `Transaction::complete_async_commit()` (transaction.cpp:669). `flushOk`
models whether the external `GroupCommitter::commit` succeeds. -/
def complete_async_commit (flushOk : Bool) (w : W) : W :=
  let p := grab_read_lock w
  let read_lock := p.1
  let w1 := p.2
  if flushOk then
    let w2 := release_read_lock read_lock w1
    match w2.txn.m_oldest_version_not_persisted with
    | some r =>
      let w3 := release_read_lock r w2
      { w3 with txn := { w3.txn with m_oldest_version_not_persisted := none } }
    | none => w2
  else
    let w2 := { w1 with txn := { w1.txn with
        m_commit_exception := some Err.CommitFailed,
        m_async_commit_has_failed := true } }
    release_read_lock read_lock w2

/-- `Transaction::prepare_for_close()` (transaction.cpp:727). The blocking
waits of the `Requesting` and `Syncing` branches are modelled by their
post-wait sequential effect. -/
def prepare_for_close (flushOk : Bool) (w : W) : W :=
  let w2 :=
    match w.txn.m_async_stage with
    | AsyncState.Idle => w
    | AsyncState.Requesting => end_write w
    | AsyncState.HasLock =>
      let wa :=
        if w.txn.m_transact_stage = TransactStage.Writing then
          { w with txn := { w.txn with m_transact_stage := TransactStage.Reading },
                   events := w.events ++ [Event.resetFreeSpaceTracking] }
        else w
      let wb :=
        match wa.txn.m_oldest_version_not_persisted with
        | some _ => complete_async_commit flushOk wa
        | none => wa
      end_write wb
    | AsyncState.HasCommits => end_write (complete_async_commit flushOk w)
    | AsyncState.Syncing => w
  { w2 with txn := { w2.txn with m_async_stage := AsyncState.Idle } }

/-- `Transaction::do_end_read()` (transaction.cpp:809): drains the async
coordinator, detaches, leaks the retained lock when one is present (the flush
for it failed), releases the current read lock and moves to `Ready`. -/
def do_end_read (flushOk : Bool) (w : W) : W :=
  let w1 := prepare_for_close flushOk w
  let w2 := { w1 with txn := { w1.txn with attached := false } }
  let w3 :=
    match w2.txn.m_oldest_version_not_persisted with
    | some r => leak_read_lock r w2
    | none => w2
  let w4 := release_read_lock w3.txn.m_read_lock w3
  { w4 with txn := { w4.txn with m_transact_stage := TransactStage.Ready } }

/-- `Transaction::rollback()` (transaction.cpp:235). -/
def rollback (flushOk : Bool) (w : W) : Except Err W :=
  if w.txn.attached = false then Except.ok w
  else if w.txn.m_transact_stage = TransactStage.Ready then Except.ok w
  else if w.txn.m_transact_stage ≠ TransactStage.Writing then
    Except.error (Err.WrongTransactionState "Not a write transaction")
  else
    let w1 := { w with events := w.events ++ [Event.resetFreeSpaceTracking] }
    let w2 := if holds_write_mutex w1.txn = false then end_write w1 else w1
    Except.ok (do_end_read flushOk w2)

/-- `Transaction::end_read()` (transaction.cpp:254). -/
def end_read (flushOk : Bool) (w : W) : Except Err W :=
  if w.txn.m_transact_stage = TransactStage.Ready then Except.ok w
  else if w.txn.m_transact_stage = TransactStage.Writing then
    Except.error (Err.WrongTransactionState "Illegal end_read when in write mode")
  else Except.ok (do_end_read flushOk w)

/-- `Transaction::commit()` (transaction.cpp:207). -/
def commit (flushOk : Bool) (w : W) : Except Err (W × Nat) :=
  if w.txn.attached = false then Except.error Err.StaleAccessor
  else if w.txn.m_transact_stage ≠ TransactStage.Writing then
    Except.error (Err.WrongTransactionState "Not a write transaction")
  else
    let p := do_commit w
    let w1 := p.1
    let new_version := p.2
    let q := grab_read_lock w1
    let lock_after_commit := q.1
    let w2 := q.2
    let w3 := release_read_lock lock_after_commit w2
    let w4 := end_write w3
    let w5 := do_end_read flushOk w4
    Except.ok ({ w5 with txn := { w5.txn with m_read_lock := lock_after_commit } },
               new_version)

/-- `Transaction::commit_and_continue_as_read(bool)` (transaction.cpp:263). -/
def commit_and_continue_as_read (commit_to_disk : Bool) (w : W) :
    Except Err (W × Nat) :=
  if w.txn.attached = false then Except.error Err.StaleAccessor
  else if w.txn.m_transact_stage ≠ TransactStage.Writing then
    Except.error (Err.WrongTransactionState "Not a write transaction")
  else
    let p := do_commit w
    let w1 := p.1
    let version := p.2
    let q := grab_read_lock w1
    let new_read_lock := q.1
    let w2 := q.2
    let w3 := { w2 with txn := { w2.txn with m_transact_stage := TransactStage.Reading } }
    let w4 :=
      if commit_to_disk = true ∨ w3.txn.m_oldest_version_not_persisted.isSome then
        release_read_lock w3.txn.m_read_lock w3
      else
        { w3 with txn := { w3.txn with
            m_oldest_version_not_persisted := some w3.txn.m_read_lock } }
    let w5 :=
      match commit_to_disk, w4.txn.m_oldest_version_not_persisted with
      | true, some r =>
        let wa := release_read_lock r w4
        { wa with txn := { wa.txn with m_oldest_version_not_persisted := none } }
      | _, _ => w4
    let w6 := { w5 with txn := { w5.txn with m_read_lock := new_read_lock } }
    let w7 :=
      if commit_to_disk = true then
        if w6.txn.m_async_stage = AsyncState.Requesting then
          { w6 with txn := { w6.txn with m_async_stage := AsyncState.HasLock } }
        else
          let wa := end_write w6
          { wa with txn := { wa.txn with m_async_stage := AsyncState.Idle } }
      else
        { w6 with txn := { w6.txn with m_async_stage := AsyncState.HasCommits } }
    Except.ok (w7, version)

/-- `Transaction::commit_and_continue_writing()` (transaction.cpp:343). -/
def commit_and_continue_writing (w : W) : Except Err (W × Nat) :=
  if w.txn.attached = false then Except.error Err.StaleAccessor
  else if w.txn.m_transact_stage ≠ TransactStage.Writing then
    Except.error (Err.WrongTransactionState "Not a write transaction")
  else
    let p := do_commit w
    let w1 := p.1
    let version := p.2
    let q := grab_read_lock w1
    let lock_after_commit := q.1
    let w2 := q.2
    let w3 := release_read_lock w2.txn.m_read_lock w2
    let w4 := { w3 with txn := { w3.txn with m_read_lock := lock_after_commit } }
    Except.ok (w4, version)

/-- Result of `freeze()` / `duplicate()`: a new Transaction handle, described
by its starting stage and the snapshot it is pinned at. -/
structure NewTxn where
  stage : TransactStage
  version : Nat
  reader_idx : Nat
deriving DecidableEq, Repr

/-- `Transaction::freeze()` (transaction.cpp:370). -/
def freeze (w : W) : Except Err NewTxn :=
  if w.txn.m_transact_stage ≠ TransactStage.Reading then
    Except.error (Err.WrongTransactionState "Can only freeze a read transaction")
  else
    Except.ok ⟨TransactStage.Frozen, w.txn.m_read_lock.m_version,
               w.txn.m_read_lock.m_reader_idx⟩

/-- `Transaction::duplicate()` (transaction.cpp:378). `db->start_read(v)`
yields a new Reading Transaction pinned at `v`; `db->start_frozen(v)` a new
Frozen one. -/
def duplicate (w : W) : Except Err NewTxn :=
  match w.txn.m_transact_stage with
  | TransactStage.Ready =>
    Except.error (Err.WrongTransactionState
      "Cannot duplicate a transaction which does not have a read lock.")
  | TransactStage.Reading =>
    Except.ok ⟨TransactStage.Reading, w.txn.m_read_lock.m_version,
               w.txn.m_read_lock.m_reader_idx⟩
  | TransactStage.Frozen =>
    Except.ok ⟨TransactStage.Frozen, w.txn.m_read_lock.m_version,
               w.txn.m_read_lock.m_reader_idx⟩
  | TransactStage.Writing =>
    if get_commit_size w ≠ 0 then
      Except.error (Err.WrongTransactionState
        "Can only duplicate a write transaction before any changes have been made.")
    else
      Except.ok ⟨TransactStage.Reading, w.txn.m_read_lock.m_version,
                 w.txn.m_read_lock.m_reader_idx⟩

/-- `Transaction::async_complete_writes(when_synchronized)`
(transaction.cpp:700). In the `HasLock` branch the callback argument is
discarded; in the `HasCommits` branch the flush is handed to the worker
(`syncToDisk`), whose later execution is `async_sync_worker` below. -/
def async_complete_writes (w : W) : W :=
  if w.txn.m_async_stage = AsyncState.HasLock then
    let w1 := { w with txn := { w.txn with m_async_stage := AsyncState.Idle } }
    end_write w1
  else if w.txn.m_async_stage = AsyncState.HasCommits then
    { w with txn := { w.txn with m_async_stage := AsyncState.Syncing,
                                 m_commit_exception := none },
             events := w.events ++ [Event.syncToDisk] }
  else w

/-- The lambda handed to `db->async_sync_to_disk` in `async_complete_writes`:
runs `complete_async_commit`, returns the coordinator to `Idle`, and either
wakes a thread blocked in `prepare_for_close` or invokes the callback. -/
def async_sync_worker (flushOk : Bool) (w : W) : W :=
  let w1 := complete_async_commit flushOk w
  let w2 := { w1 with txn := { w1.txn with m_async_stage := AsyncState.Idle } }
  if w2.txn.m_waiting_for_sync = true then
    { w2 with txn := { w2.txn with m_waiting_for_sync := false } }
  else
    { w2 with events := w2.events ++ [Event.callbackInvoked] }

/-! Concrete sample states, used by counterexamples and witnesses. -/

/-- A sample read lock pinning version 1. -/
def lockA : ReadLockInfo := ⟨1, 16, 128, 0⟩

/-- A sample older retained lock pinning version 0. -/
def lockOld : ReadLockInfo := ⟨0, 8, 64, 3⟩

/-- A sample database state whose latest snapshot is version 1. -/
def db0 : DBState := ⟨1, 16, 128, 1⟩

/-- A sample attached Reading Transaction with an idle async coordinator. -/
def txn0 : Txn :=
  { attached := true
    m_transact_stage := TransactStage.Reading
    m_read_lock := lockA
    m_oldest_version_not_persisted := none
    m_async_stage := AsyncState.Idle
    m_async_commit_has_failed := false
    m_commit_exception := none
    m_waiting_for_sync := false
    allocCommitSize := 0 }

/-- Sample world: attached Reading Transaction, empty trace. -/
def w0 : W := ⟨txn0, db0, []⟩

/-- Sample world in the `HasLock` async state (write lock held, nothing
pending), as produced by `promote_to_async` from `Idle`. -/
def wHasLock : W :=
  ⟨{ txn0 with m_async_stage := AsyncState.HasLock }, db0, []⟩

/-- Sample world: Writing stage with no retained lock and nothing written. -/
def wWriting : W :=
  ⟨{ txn0 with m_transact_stage := TransactStage.Writing }, db0, []⟩

/-- Sample world: Writing stage with 42 dirty bytes. -/
def wWritingDirty : W :=
  ⟨{ txn0 with m_transact_stage := TransactStage.Writing, allocCommitSize := 42 }, db0, []⟩

/-- Sample world: Writing stage holding a retained lock on version 0 (a
previous non-flushed commit), async coordinator in `HasCommits`. -/
def wRetained : W :=
  ⟨{ txn0 with m_transact_stage := TransactStage.Writing,
               m_oldest_version_not_persisted := some lockOld,
               m_async_stage := AsyncState.HasCommits }, db0, []⟩

/-- Sample world: Frozen stage. -/
def wFrozen : W :=
  ⟨{ txn0 with m_transact_stage := TransactStage.Frozen }, db0, []⟩

/-- Sample world: detached (NotAttached, no database). -/
def wDetached : W :=
  ⟨{ txn0 with attached := false, m_transact_stage := TransactStage.Ready }, db0, []⟩

/-- Sample world: worker about to flush (Syncing) with a retained lock on
version 0 while the current lock pins version 1. -/
def wSyncing : W :=
  ⟨{ txn0 with m_async_stage := AsyncState.Syncing,
               m_oldest_version_not_persisted := some lockOld }, db0, []⟩

/-! ### C10: `promote_to_async` -/

/-- Claim C10: `promote_to_async()` moves the async state from `Idle` to
`HasLock` (changing nothing else), and in every other async state it is a
complete no-op leaving the whole state unchanged. -/
theorem C10_promote_to_async_frame (w : W) :
    (w.txn.m_async_stage = AsyncState.Idle →
      promote_to_async w =
        { w with txn := { w.txn with m_async_stage := AsyncState.HasLock } }) ∧
    (w.txn.m_async_stage ≠ AsyncState.Idle → promote_to_async w = w) := by
  constructor <;> intro h <;> simp [promote_to_async, h]

/-- Witness for C10 at concrete states: promotion from `Idle`, no-op from
`HasLock`. -/
theorem C10_promote_to_async_frame_witness :
    promote_to_async w0 =
      { w0 with txn := { w0.txn with m_async_stage := AsyncState.HasLock } } ∧
    promote_to_async wHasLock = wHasLock :=
  ⟨(C10_promote_to_async_frame w0).1 rfl,
   (C10_promote_to_async_frame wHasLock).2 (by decide)⟩

/-! ### C7: `rollback` -/

/-- `do_end_read` always leaves the Transaction detached. -/
theorem do_end_read_attached (flushOk : Bool) (w : W) :
    (do_end_read flushOk w).txn.attached = false := by
  unfold do_end_read
  cases h : (prepare_for_close flushOk w).txn.m_oldest_version_not_persisted <;>
    simp [h, leak_read_lock, release_read_lock]

/-- Claim C7: `rollback()` is a no-op on a Transaction that is not attached at
all or already NotAttached (and hence can be repeated without effect or
error), and fails with the InvalidState error (`WrongTransactionState`) when
called on an attached Transaction in Reading or Frozen stage. -/
theorem C7_rollback_idempotent_no_op (flushOk : Bool) (w : W) :
    (w.txn.attached = false → rollback flushOk w = Except.ok w) ∧
    (w.txn.m_transact_stage = TransactStage.Ready → rollback flushOk w = Except.ok w) ∧
    (w.txn.attached = true →
      (w.txn.m_transact_stage = TransactStage.Reading ∨
       w.txn.m_transact_stage = TransactStage.Frozen) →
      rollback flushOk w =
        Except.error (Err.WrongTransactionState "Not a write transaction")) ∧
    (∀ w2, rollback flushOk w = Except.ok w2 → rollback flushOk w2 = Except.ok w2) := by
  refine ⟨?_, ?_, ?_, ?_⟩
  · intro h; simp [rollback, h]
  · intro h
    cases hA : w.txn.attached with
    | false => simp [rollback, hA]
    | true => simp [rollback, hA, h]
  · intro ha hs
    rcases hs with h | h <;> simp [rollback, ha, h]
  · intro w2 hok
    cases hA : w.txn.attached with
    | false =>
      simp [rollback, hA] at hok
      subst hok; simp [rollback, hA]
    | true =>
      by_cases hr : w.txn.m_transact_stage = TransactStage.Ready
      · simp [rollback, hA, hr] at hok
        subst hok; simp [rollback, hA, hr]
      · by_cases hw : w.txn.m_transact_stage = TransactStage.Writing
        · simp [rollback, hA, hr, hw] at hok
          have hatt : w2.txn.attached = false := by
            rw [← hok]; exact do_end_read_attached _ _
          simp [rollback, hatt]
        · simp [rollback, hA, hr, hw] at hok

/-- Witness for C7 at concrete states: no-op on a detached handle, error from
Reading and from Frozen. -/
theorem C7_rollback_idempotent_no_op_witness :
    rollback true wDetached = Except.ok wDetached ∧
    rollback true w0 =
      Except.error (Err.WrongTransactionState "Not a write transaction") ∧
    rollback true wFrozen =
      Except.error (Err.WrongTransactionState "Not a write transaction") :=
  ⟨(C7_rollback_idempotent_no_op true wDetached).1 rfl,
   (C7_rollback_idempotent_no_op true w0).2.2.1 rfl (Or.inl rfl),
   (C7_rollback_idempotent_no_op true wFrozen).2.2.1 rfl (Or.inr rfl)⟩

/-! ### C8: `duplicate` -/

/-- Claim C8: `duplicate()` yields a new Transaction pinned at the same
version: Reading gives a new Reading one, Frozen a new Frozen one, Writing a
new Reading one exactly when zero bytes have been written so far (otherwise
the InvalidState error), and NotAttached fails with the InvalidState error. -/
theorem C8_duplicate_cases (w : W) :
    (w.txn.m_transact_stage = TransactStage.Reading →
      duplicate w = Except.ok ⟨TransactStage.Reading, w.txn.m_read_lock.m_version,
                               w.txn.m_read_lock.m_reader_idx⟩) ∧
    (w.txn.m_transact_stage = TransactStage.Frozen →
      duplicate w = Except.ok ⟨TransactStage.Frozen, w.txn.m_read_lock.m_version,
                               w.txn.m_read_lock.m_reader_idx⟩) ∧
    (w.txn.m_transact_stage = TransactStage.Writing → get_commit_size w = 0 →
      duplicate w = Except.ok ⟨TransactStage.Reading, w.txn.m_read_lock.m_version,
                               w.txn.m_read_lock.m_reader_idx⟩) ∧
    (w.txn.m_transact_stage = TransactStage.Writing → get_commit_size w ≠ 0 →
      duplicate w = Except.error (Err.WrongTransactionState
        "Can only duplicate a write transaction before any changes have been made.")) ∧
    (w.txn.m_transact_stage = TransactStage.Ready →
      duplicate w = Except.error (Err.WrongTransactionState
        "Cannot duplicate a transaction which does not have a read lock.")) := by
  refine ⟨?_, ?_, ?_, ?_, ?_⟩
  · intro h; simp [duplicate, h]
  · intro h; simp [duplicate, h]
  · intro h h2; simp [duplicate, h, h2]
  · intro h h2; simp [duplicate, h, h2]
  · intro h; simp [duplicate, h]

/-- Witness for C8 at concrete states: all five cases evaluated. -/
theorem C8_duplicate_cases_witness :
    duplicate w0 = Except.ok ⟨TransactStage.Reading, 1, 0⟩ ∧
    duplicate wFrozen = Except.ok ⟨TransactStage.Frozen, 1, 0⟩ ∧
    duplicate wWriting = Except.ok ⟨TransactStage.Reading, 1, 0⟩ ∧
    duplicate wWritingDirty = Except.error (Err.WrongTransactionState
      "Can only duplicate a write transaction before any changes have been made.") ∧
    duplicate wDetached = Except.error (Err.WrongTransactionState
      "Cannot duplicate a transaction which does not have a read lock.") :=
  ⟨(C8_duplicate_cases w0).1 rfl,
   (C8_duplicate_cases wFrozen).2.1 rfl,
   (C8_duplicate_cases wWriting).2.2.1 rfl rfl,
   (C8_duplicate_cases wWritingDirty).2.2.2.1 rfl (by decide),
   (C8_duplicate_cases wDetached).2.2.2.2 rfl⟩

/-! ### C1: `async_complete_writes` from `HasLock` -/

/-- Claim C1 fails on the code: from `HasLock` with nothing pending,
`async_complete_writes` releases the write lock and never enters `Syncing`,
but it does NOT invoke the `on_done` callback (the callback argument is
destroyed unused in that branch), so "invokes the callback exactly once" is
false at this concrete state. -/
theorem C1_counterexample :
    (async_complete_writes wHasLock).events = [Event.endWrite] ∧
    Event.callbackInvoked ∉ (async_complete_writes wHasLock).events ∧
    Event.syncToDisk ∉ (async_complete_writes wHasLock).events := by
  decide

/-- Claim C1 (amended): from `HasLock`, `async_complete_writes` releases the
write lock, moves the async state to `Idle` (so it never enters `Syncing`),
changes nothing else, and does not invoke the `on_done` callback. -/
theorem C1_async_complete_writes_hasLock (w : W)
    (h : w.txn.m_async_stage = AsyncState.HasLock) :
    async_complete_writes w =
      { w with txn := { w.txn with m_async_stage := AsyncState.Idle },
               events := w.events ++ [Event.endWrite] } := by
  simp [async_complete_writes, h, end_write]

/-- Witness for C1: the amended theorem applied at the concrete `HasLock`
state. -/
theorem C1_async_complete_writes_hasLock_witness :
    async_complete_writes wHasLock =
      { wHasLock with txn := { wHasLock.txn with m_async_stage := AsyncState.Idle },
                      events := [Event.endWrite] } := by
  have h := C1_async_complete_writes_hasLock wHasLock (by decide)
  simpa using h

/-! ### C3: lock juggling in `commit_and_continue_as_read` -/

/-- The live lock grabbed right after the in-memory commit inside
`commit_and_continue_as_read` / `commit_and_continue_writing`: it pins the
freshly published version. -/
def newLock (w : W) : ReadLockInfo :=
  ⟨w.db.latestVersion + 1, w.db.latestTopRef, w.db.latestFileSize, w.db.grabCount⟩

/-- Claim C3 fails on the code: with `flush_to_disk = false` and no retained
lock yet, the prior read lock is NOT released (no release event appears); it
becomes the retained lock instead. The claim asserted it is released in this
case. -/
theorem C3_counterexample :
    commit_and_continue_as_read false wWriting =
      Except.ok
        (⟨{ wWriting.txn with
              m_transact_stage := TransactStage.Reading,
              m_oldest_version_not_persisted := some lockA,
              m_read_lock := ⟨2, 16, 128, 1⟩,
              m_async_stage := AsyncState.HasCommits },
          ⟨2, 16, 128, 2⟩,
          [Event.grabLock ⟨2, 16, 128, 1⟩]⟩, 2) ∧
    Event.releaseLock wWriting.txn.m_read_lock ∉ [Event.grabLock (⟨2, 16, 128, 1⟩ : ReadLockInfo)] :=
  ⟨by rfl, by decide⟩

/-- Case analysis of `commit_and_continue_as_read` on a Writing Transaction,
with the full result state in each of the four (flush, retained-lock)
configurations. -/
theorem ccar_cases (flag : Bool) (w : W)
    (hA : w.txn.attached = true)
    (hW : w.txn.m_transact_stage = TransactStage.Writing) :
    (flag = false → w.txn.m_oldest_version_not_persisted = none →
      commit_and_continue_as_read flag w =
        Except.ok
          (⟨{ w.txn with
                m_transact_stage := TransactStage.Reading,
                m_oldest_version_not_persisted := some w.txn.m_read_lock,
                m_read_lock := newLock w,
                m_async_stage := AsyncState.HasCommits },
            { w.db with latestVersion := w.db.latestVersion + 1,
                        grabCount := w.db.grabCount + 1 },
            w.events ++ [Event.grabLock (newLock w)]⟩,
           w.db.latestVersion + 1)) ∧
    (∀ r, flag = false → w.txn.m_oldest_version_not_persisted = some r →
      commit_and_continue_as_read flag w =
        Except.ok
          (⟨{ w.txn with
                m_transact_stage := TransactStage.Reading,
                m_oldest_version_not_persisted := some r,
                m_read_lock := newLock w,
                m_async_stage := AsyncState.HasCommits },
            { w.db with latestVersion := w.db.latestVersion + 1,
                        grabCount := w.db.grabCount + 1 },
            w.events ++ [Event.grabLock (newLock w),
                         Event.releaseLock w.txn.m_read_lock]⟩,
           w.db.latestVersion + 1)) ∧
    (flag = true → w.txn.m_oldest_version_not_persisted = none →
      commit_and_continue_as_read flag w =
        Except.ok
          (⟨{ w.txn with
                m_transact_stage := TransactStage.Reading,
                m_oldest_version_not_persisted := none,
                m_read_lock := newLock w,
                m_async_stage :=
                  if w.txn.m_async_stage = AsyncState.Requesting then
                    AsyncState.HasLock
                  else AsyncState.Idle },
            { w.db with latestVersion := w.db.latestVersion + 1,
                        grabCount := w.db.grabCount + 1 },
            w.events ++ [Event.grabLock (newLock w),
                         Event.releaseLock w.txn.m_read_lock] ++
              (if w.txn.m_async_stage = AsyncState.Requesting then []
               else [Event.endWrite])⟩,
           w.db.latestVersion + 1)) ∧
    (∀ r, flag = true → w.txn.m_oldest_version_not_persisted = some r →
      commit_and_continue_as_read flag w =
        Except.ok
          (⟨{ w.txn with
                m_transact_stage := TransactStage.Reading,
                m_oldest_version_not_persisted := none,
                m_read_lock := newLock w,
                m_async_stage :=
                  if w.txn.m_async_stage = AsyncState.Requesting then
                    AsyncState.HasLock
                  else AsyncState.Idle },
            { w.db with latestVersion := w.db.latestVersion + 1,
                        grabCount := w.db.grabCount + 1 },
            w.events ++ [Event.grabLock (newLock w),
                         Event.releaseLock w.txn.m_read_lock,
                         Event.releaseLock r] ++
              (if w.txn.m_async_stage = AsyncState.Requesting then []
               else [Event.endWrite])⟩,
           w.db.latestVersion + 1)) := by
  refine ⟨?_, ?_, ?_, ?_⟩
  · intro h1 h2
    simp [commit_and_continue_as_read, do_commit, grab_read_lock,
      release_read_lock, end_write, newLock, hA, hW, h1, h2]
  · intro r h1 h2
    simp [commit_and_continue_as_read, do_commit, grab_read_lock,
      release_read_lock, end_write, newLock, hA, hW, h1, h2]
  · intro h1 h2
    by_cases hR : w.txn.m_async_stage = AsyncState.Requesting <;>
      simp [commit_and_continue_as_read, do_commit, grab_read_lock,
        release_read_lock, end_write, newLock, hA, hW, h1, h2, hR]
  · intro r h1 h2
    by_cases hR : w.txn.m_async_stage = AsyncState.Requesting <;>
      simp [commit_and_continue_as_read, do_commit, grab_read_lock,
        release_read_lock, end_write, newLock, hA, hW, h1, h2, hR]

/-- Claim C3 (amended): for every successful `commit_and_continue_as_read` on
a Writing Transaction, if `flush_to_disk` is true or a retained lock already
exists, the prior read lock is released; otherwise (no flush and no retained
lock yet) the prior read lock is kept as the retained lock; and if
`flush_to_disk` is true and a retained lock exists, that retained lock is
released and cleared. The four cases are given as full result states. -/
theorem C3_ccar_lock_handling (flag : Bool) (w : W)
    (hA : w.txn.attached = true)
    (hW : w.txn.m_transact_stage = TransactStage.Writing) :
    (flag = false → w.txn.m_oldest_version_not_persisted = none →
      commit_and_continue_as_read flag w =
        Except.ok
          (⟨{ w.txn with
                m_transact_stage := TransactStage.Reading,
                m_oldest_version_not_persisted := some w.txn.m_read_lock,
                m_read_lock := newLock w,
                m_async_stage := AsyncState.HasCommits },
            { w.db with latestVersion := w.db.latestVersion + 1,
                        grabCount := w.db.grabCount + 1 },
            w.events ++ [Event.grabLock (newLock w)]⟩,
           w.db.latestVersion + 1)) ∧
    (∀ r, flag = false → w.txn.m_oldest_version_not_persisted = some r →
      commit_and_continue_as_read flag w =
        Except.ok
          (⟨{ w.txn with
                m_transact_stage := TransactStage.Reading,
                m_oldest_version_not_persisted := some r,
                m_read_lock := newLock w,
                m_async_stage := AsyncState.HasCommits },
            { w.db with latestVersion := w.db.latestVersion + 1,
                        grabCount := w.db.grabCount + 1 },
            w.events ++ [Event.grabLock (newLock w),
                         Event.releaseLock w.txn.m_read_lock]⟩,
           w.db.latestVersion + 1)) ∧
    (flag = true → w.txn.m_oldest_version_not_persisted = none →
      commit_and_continue_as_read flag w =
        Except.ok
          (⟨{ w.txn with
                m_transact_stage := TransactStage.Reading,
                m_oldest_version_not_persisted := none,
                m_read_lock := newLock w,
                m_async_stage :=
                  if w.txn.m_async_stage = AsyncState.Requesting then
                    AsyncState.HasLock
                  else AsyncState.Idle },
            { w.db with latestVersion := w.db.latestVersion + 1,
                        grabCount := w.db.grabCount + 1 },
            w.events ++ [Event.grabLock (newLock w),
                         Event.releaseLock w.txn.m_read_lock] ++
              (if w.txn.m_async_stage = AsyncState.Requesting then []
               else [Event.endWrite])⟩,
           w.db.latestVersion + 1)) ∧
    (∀ r, flag = true → w.txn.m_oldest_version_not_persisted = some r →
      commit_and_continue_as_read flag w =
        Except.ok
          (⟨{ w.txn with
                m_transact_stage := TransactStage.Reading,
                m_oldest_version_not_persisted := none,
                m_read_lock := newLock w,
                m_async_stage :=
                  if w.txn.m_async_stage = AsyncState.Requesting then
                    AsyncState.HasLock
                  else AsyncState.Idle },
            { w.db with latestVersion := w.db.latestVersion + 1,
                        grabCount := w.db.grabCount + 1 },
            w.events ++ [Event.grabLock (newLock w),
                         Event.releaseLock w.txn.m_read_lock,
                         Event.releaseLock r] ++
              (if w.txn.m_async_stage = AsyncState.Requesting then []
               else [Event.endWrite])⟩,
           w.db.latestVersion + 1)) :=
  ccar_cases flag w hA hW

/-- Witness for C3 (amended), at concrete states: the keep-as-retained case
and the flush case that releases and clears an existing retained lock. -/
theorem C3_ccar_lock_handling_witness :
    commit_and_continue_as_read false wWriting =
      Except.ok
        (⟨{ wWriting.txn with
              m_transact_stage := TransactStage.Reading,
              m_oldest_version_not_persisted := some wWriting.txn.m_read_lock,
              m_read_lock := newLock wWriting,
              m_async_stage := AsyncState.HasCommits },
          { wWriting.db with latestVersion := wWriting.db.latestVersion + 1,
                             grabCount := wWriting.db.grabCount + 1 },
          wWriting.events ++ [Event.grabLock (newLock wWriting)]⟩,
         wWriting.db.latestVersion + 1) ∧
    commit_and_continue_as_read true wRetained =
      Except.ok
        (⟨{ wRetained.txn with
              m_transact_stage := TransactStage.Reading,
              m_oldest_version_not_persisted := none,
              m_read_lock := newLock wRetained,
              m_async_stage := AsyncState.Idle },
          { wRetained.db with latestVersion := wRetained.db.latestVersion + 1,
                              grabCount := wRetained.db.grabCount + 1 },
          wRetained.events ++ [Event.grabLock (newLock wRetained),
                               Event.releaseLock wRetained.txn.m_read_lock,
                               Event.releaseLock lockOld, Event.endWrite]⟩,
         wRetained.db.latestVersion + 1) := by
  constructor
  · exact (C3_ccar_lock_handling false wWriting rfl rfl).1 rfl rfl
  · have h := (C3_ccar_lock_handling true wRetained rfl rfl).2.2.2 lockOld rfl rfl
    simpa using h

/-! ### C2: a failed async disk flush leaks the retained read lock -/

/-- Claim C2: when the disk flush inside `complete_async_commit` fails (here:
the worker body `async_sync_worker` runs with a failing flush), the error is
recorded in `m_commit_exception`, the commit is marked permanently failed, the
retained lock survives untouched, and the freshly grabbed live lock of the
flush attempt is released; when the Transaction later detaches via
`do_end_read`, the retained lock is leaked and never released, while the
current read lock is released. -/
theorem C2_flush_failure_leaks_retained_lock (flushOk : Bool) (w : W)
    (r : ReadLockInfo)
    (hov : w.txn.m_oldest_version_not_persisted = some r)
    (hwait : w.txn.m_waiting_for_sync = false)
    (hlt : r.m_version < w.txn.m_read_lock.m_version)
    (hle : w.txn.m_read_lock.m_version ≤ w.db.latestVersion) :
    (async_sync_worker false w).txn.m_commit_exception = some Err.CommitFailed ∧
    (async_sync_worker false w).txn.m_async_commit_has_failed = true ∧
    (async_sync_worker false w).txn.m_oldest_version_not_persisted = some r ∧
    (async_sync_worker false w).events =
      w.events ++
        [Event.grabLock ⟨w.db.latestVersion, w.db.latestTopRef,
                         w.db.latestFileSize, w.db.grabCount⟩,
         Event.releaseLock ⟨w.db.latestVersion, w.db.latestTopRef,
                            w.db.latestFileSize, w.db.grabCount⟩,
         Event.callbackInvoked] ∧
    (do_end_read flushOk (async_sync_worker false w)).events =
      w.events ++
        [Event.grabLock ⟨w.db.latestVersion, w.db.latestTopRef,
                         w.db.latestFileSize, w.db.grabCount⟩,
         Event.releaseLock ⟨w.db.latestVersion, w.db.latestTopRef,
                            w.db.latestFileSize, w.db.grabCount⟩,
         Event.callbackInvoked,
         Event.leakLock r,
         Event.releaseLock w.txn.m_read_lock] ∧
    Event.releaseLock r ∉
      (do_end_read flushOk (async_sync_worker false w)).events.drop w.events.length := by
  have hne1 : r ≠ (⟨w.db.latestVersion, w.db.latestTopRef,
                   w.db.latestFileSize, w.db.grabCount⟩ : ReadLockInfo) := by
    intro he
    have : r.m_version = w.db.latestVersion := by rw [he]
    omega
  have hne2 : r ≠ w.txn.m_read_lock := by
    intro he
    have : r.m_version = w.txn.m_read_lock.m_version := by rw [he]
    omega
  have h1 : async_sync_worker false w =
      ⟨{ w.txn with m_async_stage := AsyncState.Idle,
                    m_commit_exception := some Err.CommitFailed,
                    m_async_commit_has_failed := true },
       { w.db with grabCount := w.db.grabCount + 1 },
       w.events ++
         [Event.grabLock ⟨w.db.latestVersion, w.db.latestTopRef,
                          w.db.latestFileSize, w.db.grabCount⟩,
          Event.releaseLock ⟨w.db.latestVersion, w.db.latestTopRef,
                             w.db.latestFileSize, w.db.grabCount⟩,
          Event.callbackInvoked]⟩ := by
    simp [async_sync_worker, complete_async_commit, grab_read_lock,
      release_read_lock, hwait]
  have h2 : do_end_read flushOk (async_sync_worker false w) =
      ⟨{ w.txn with m_async_stage := AsyncState.Idle,
                    m_commit_exception := some Err.CommitFailed,
                    m_async_commit_has_failed := true,
                    attached := false,
                    m_transact_stage := TransactStage.Ready },
       { w.db with grabCount := w.db.grabCount + 1 },
       w.events ++
         [Event.grabLock ⟨w.db.latestVersion, w.db.latestTopRef,
                          w.db.latestFileSize, w.db.grabCount⟩,
          Event.releaseLock ⟨w.db.latestVersion, w.db.latestTopRef,
                             w.db.latestFileSize, w.db.grabCount⟩,
          Event.callbackInvoked,
          Event.leakLock r,
          Event.releaseLock w.txn.m_read_lock]⟩ := by
    rw [h1]
    simp [do_end_read, prepare_for_close, leak_read_lock, release_read_lock, hov]
  refine ⟨by rw [h1], by rw [h1], by rw [h1]; exact hov, by rw [h1], by rw [h2], ?_⟩
  rw [h2]
  simp only [List.drop_left, List.mem_cons, List.not_mem_nil]
  simp [hne1, hne2, Ne.symm hne1, Ne.symm hne2]

/-- Witness for C2 at a concrete state: retained lock on version 0, current
lock on version 1, failing flush, then detach. -/
theorem C2_flush_failure_leaks_retained_lock_witness :
    (async_sync_worker false wSyncing).txn.m_commit_exception = some Err.CommitFailed ∧
    (async_sync_worker false wSyncing).txn.m_async_commit_has_failed = true ∧
    (async_sync_worker false wSyncing).txn.m_oldest_version_not_persisted = some lockOld ∧
    (async_sync_worker false wSyncing).events =
      wSyncing.events ++
        [Event.grabLock ⟨1, 16, 128, 1⟩, Event.releaseLock ⟨1, 16, 128, 1⟩,
         Event.callbackInvoked] ∧
    (do_end_read true (async_sync_worker false wSyncing)).events =
      wSyncing.events ++
        [Event.grabLock ⟨1, 16, 128, 1⟩, Event.releaseLock ⟨1, 16, 128, 1⟩,
         Event.callbackInvoked, Event.leakLock lockOld, Event.releaseLock lockA] ∧
    Event.releaseLock lockOld ∉
      (do_end_read true (async_sync_worker false wSyncing)).events.drop
        wSyncing.events.length :=
  C2_flush_failure_leaks_retained_lock true wSyncing lockOld rfl rfl
    (by decide) (by decide)

/-! ### C5: the retained lock always pins a strictly older version -/

/-- The lock invariant of the spec: the retained lock, when present, pins a
version strictly older than the current read lock. `m_read_lock` additionally
never runs ahead of the latest committed version (auxiliary fact needed for
preservation across commits). -/
def LockInv (w : W) : Prop :=
  (∀ r, w.txn.m_oldest_version_not_persisted = some r →
    r.m_version < w.txn.m_read_lock.m_version) ∧
  w.txn.m_read_lock.m_version ≤ w.db.latestVersion

/-- `complete_async_commit` never changes the current read lock or the latest
version, and either clears the retained lock or leaves it untouched. -/
theorem complete_async_commit_frame (f : Bool) (w : W) :
    (complete_async_commit f w).txn.m_read_lock = w.txn.m_read_lock ∧
    (complete_async_commit f w).db.latestVersion = w.db.latestVersion ∧
    ((complete_async_commit f w).txn.m_oldest_version_not_persisted = none ∨
     (complete_async_commit f w).txn.m_oldest_version_not_persisted =
       w.txn.m_oldest_version_not_persisted) := by
  cases f <;> cases ho : w.txn.m_oldest_version_not_persisted <;>
    simp [complete_async_commit, grab_read_lock, release_read_lock, ho]

/-- `prepare_for_close` never changes the current read lock or the latest
version, and either clears the retained lock or leaves it untouched. -/
theorem prepare_for_close_frame (f : Bool) (w : W) :
    (prepare_for_close f w).txn.m_read_lock = w.txn.m_read_lock ∧
    (prepare_for_close f w).db.latestVersion = w.db.latestVersion ∧
    ((prepare_for_close f w).txn.m_oldest_version_not_persisted = none ∨
     (prepare_for_close f w).txn.m_oldest_version_not_persisted =
       w.txn.m_oldest_version_not_persisted) := by
  obtain ⟨⟨att, stg, rl, ovnp, asy, fl, ex, ws, acs⟩, dbs, evs⟩ := w
  cases f <;> cases asy <;> cases ovnp <;> cases stg <;>
    simp [prepare_for_close, end_write, complete_async_commit,
      grab_read_lock, release_read_lock]

/-- `do_end_read` never changes the current read lock or the latest version,
and either clears the retained lock or leaves it untouched (it is leaked, not
released, when still present). -/
theorem do_end_read_frame (f : Bool) (w : W) :
    (do_end_read f w).txn.m_read_lock = w.txn.m_read_lock ∧
    (do_end_read f w).db.latestVersion = w.db.latestVersion ∧
    ((do_end_read f w).txn.m_oldest_version_not_persisted = none ∨
     (do_end_read f w).txn.m_oldest_version_not_persisted =
       w.txn.m_oldest_version_not_persisted) := by
  have hp := prepare_for_close_frame f w
  cases ho : (prepare_for_close f w).txn.m_oldest_version_not_persisted <;>
    simp only [do_end_read, ho, leak_read_lock, release_read_lock]
  · exact ⟨hp.1, hp.2.1, by simp [ho] at hp; tauto⟩
  · refine ⟨hp.1, hp.2.1, ?_⟩
    rcases hp.2.2 with h | h
    · rw [ho] at h; cases h
    · rw [ho] at h; right; simp [← h]

/-- Invariance under operations that may clear, but never set or reorder, the
two locks. -/
theorem LockInv_of_frame {w w2 : W} (h : LockInv w)
    (hrl : w2.txn.m_read_lock = w.txn.m_read_lock)
    (hlv : w2.db.latestVersion = w.db.latestVersion)
    (hov : w2.txn.m_oldest_version_not_persisted = none ∨
           w2.txn.m_oldest_version_not_persisted =
             w.txn.m_oldest_version_not_persisted) :
    LockInv w2 := by
  constructor
  · intro r hr
    rcases hov with ho | ho
    · rw [ho] at hr; cases hr
    · rw [ho] at hr
      rw [hrl]
      exact h.1 r hr
  · rw [hrl, hlv]; exact h.2

/-- The lock invariant ignores the event trace. -/
theorem LockInv_events {w : W} (h : LockInv w) (evs : List Event) :
    LockInv ⟨w.txn, w.db, evs⟩ :=
  ⟨h.1, h.2⟩

/-- `do_end_read` preserves the lock invariant from any base world sharing
`w`-s transaction and database state. -/
theorem LockInv_do_end_read {w : W} (h : LockInv w) (f : Bool)
    (evs : List Event) :
    LockInv (do_end_read f ⟨w.txn, w.db, evs⟩) := by
  have hp := do_end_read_frame f ⟨w.txn, w.db, evs⟩
  exact LockInv_of_frame (LockInv_events h evs) hp.1 hp.2.1 hp.2.2

/-- After a commit publishes version `latest + 1` and grabs a lock on it, a
Transaction that detaches-and-rebinds to that lock satisfies the lock
invariant again. -/
theorem LockInv_advance {w : W} (h : LockInv w) (f : Bool)
    (evs : List Event) :
    LockInv
      (let wder :=
        do_end_read f
          ⟨w.txn,
           { w.db with latestVersion := w.db.latestVersion + 1,
                       grabCount := w.db.grabCount + 1 }, evs⟩
       { wder with txn := { wder.txn with m_read_lock :=
           ⟨w.db.latestVersion + 1, w.db.latestTopRef, w.db.latestFileSize,
            w.db.grabCount⟩ } }) := by
  have hp := do_end_read_frame f
    ⟨w.txn,
     { w.db with latestVersion := w.db.latestVersion + 1,
                 grabCount := w.db.grabCount + 1 }, evs⟩
  constructor
  · intro r hr
    simp only at hr
    rcases hp.2.2 with ho | ho
    · rw [ho] at hr; cases hr
    · rw [ho] at hr
      simp only at hr
      have h1 := h.1 r hr
      have h2 := h.2
      simp
      omega
  · simp only
    rw [hp.2.1]

/-- Claim C5: every operation of `transaction.cpp` that sets, clears or
updates `m_read_lock` / `m_oldest_version_not_persisted` preserves the
invariant that the retained lock, when present, pins a version strictly older
than the current read lock. -/
theorem C5_retained_lock_invariant (w : W) (h : LockInv w) :
    LockInv (promote_to_async w) ∧
    LockInv (async_complete_writes w) ∧
    (∀ f, LockInv (complete_async_commit f w)) ∧
    (∀ f, LockInv (async_sync_worker f w)) ∧
    (∀ f, LockInv (prepare_for_close f w)) ∧
    (∀ f, LockInv (do_end_read f w)) ∧
    (∀ f w2, rollback f w = Except.ok w2 → LockInv w2) ∧
    (∀ f w2, end_read f w = Except.ok w2 → LockInv w2) ∧
    (∀ f w2 v, commit f w = Except.ok (w2, v) → LockInv w2) ∧
    (∀ w2 v, commit_and_continue_writing w = Except.ok (w2, v) → LockInv w2) ∧
    (∀ flag w2 v, commit_and_continue_as_read flag w = Except.ok (w2, v) →
      LockInv w2) := by
  refine ⟨?_, ?_, ?_, ?_, ?_, ?_, ?_, ?_, ?_, ?_, ?_⟩
  · by_cases hi : w.txn.m_async_stage = AsyncState.Idle <;>
      simp only [promote_to_async, hi, if_true, if_false, reduceIte] <;>
      exact LockInv_of_frame h rfl rfl (Or.inr rfl)
  · by_cases h1 : w.txn.m_async_stage = AsyncState.HasLock
    · simp only [async_complete_writes, h1, if_true, end_write, reduceIte]
      exact LockInv_of_frame h rfl rfl (Or.inr rfl)
    · by_cases h2 : w.txn.m_async_stage = AsyncState.HasCommits <;>
        simp only [async_complete_writes, h1, h2, if_true, if_false, reduceIte] <;>
        exact LockInv_of_frame h rfl rfl (Or.inr rfl)
  · intro f
    have hc := complete_async_commit_frame f w
    exact LockInv_of_frame h hc.1 hc.2.1 hc.2.2
  · intro f
    have hc := complete_async_commit_frame f w
    have h1 : LockInv (complete_async_commit f w) :=
      LockInv_of_frame h hc.1 hc.2.1 hc.2.2
    by_cases hwf : (complete_async_commit f w).txn.m_waiting_for_sync = true <;>
      simp only [async_sync_worker, hwf, if_true, if_false, reduceIte] <;>
      exact LockInv_of_frame h1 rfl rfl (Or.inr rfl)
  · intro f
    have hp := prepare_for_close_frame f w
    exact LockInv_of_frame h hp.1 hp.2.1 hp.2.2
  · intro f
    have hp := do_end_read_frame f w
    exact LockInv_of_frame h hp.1 hp.2.1 hp.2.2
  · intro f w2 hok
    cases hA : w.txn.attached with
    | false => simp [rollback, hA] at hok; subst hok; exact h
    | true =>
      by_cases hr : w.txn.m_transact_stage = TransactStage.Ready
      · simp [rollback, hA, hr] at hok; subst hok; exact h
      · by_cases hw : w.txn.m_transact_stage = TransactStage.Writing
        · by_cases hm : holds_write_mutex w.txn = false <;>
            simp [rollback, hA, hr, hw, hm, end_write] at hok <;>
            (subst hok; exact LockInv_do_end_read h f _)
        · simp [rollback, hA, hr, hw] at hok
  · intro f w2 hok
    by_cases h1 : w.txn.m_transact_stage = TransactStage.Ready
    · simp [end_read, h1] at hok; subst hok; exact h
    · by_cases h2 : w.txn.m_transact_stage = TransactStage.Writing
      · simp [end_read, h1, h2] at hok
      · simp only [end_read, h1, h2, if_false, ite_false, ite_true,
          reduceIte, Except.ok.injEq] at hok
        subst hok
        have hp := do_end_read_frame f w
        exact LockInv_of_frame h hp.1 hp.2.1 hp.2.2
  · intro f w2 v hok
    cases hA : w.txn.attached with
    | false => simp [commit, hA] at hok
    | true =>
      by_cases hw : w.txn.m_transact_stage = TransactStage.Writing
      · simp only [commit, hA, hw, do_commit, grab_read_lock,
          release_read_lock, end_write, Bool.true_eq_false, ite_false,
          if_false, ne_eq, not_true_eq_false, reduceIte, Except.ok.injEq,
          Prod.mk.injEq] at hok
        obtain ⟨hw2, hv⟩ := hok
        subst hv
        subst hw2
        exact LockInv_advance h f _
      · simp [commit, hA, hw] at hok
  · intro w2 v hok
    cases hA : w.txn.attached with
    | false => simp [commit_and_continue_writing, hA] at hok
    | true =>
      by_cases hw : w.txn.m_transact_stage = TransactStage.Writing
      · simp only [commit_and_continue_writing, hA, hw, do_commit,
          grab_read_lock, release_read_lock, Bool.true_eq_false, ite_false,
          if_false, ne_eq, not_true_eq_false, reduceIte, Except.ok.injEq,
          Prod.mk.injEq] at hok
        obtain ⟨hw2, hv⟩ := hok
        subst hv
        subst hw2
        constructor
        · intro r hr
          simp only at hr ⊢
          have h1 := h.1 r hr
          have h2 := h.2
          omega
        · simp
      · simp [commit_and_continue_writing, hA, hw] at hok
  · intro flag w2 v hok
    cases hA : w.txn.attached with
    | false => simp [commit_and_continue_as_read, hA] at hok
    | true =>
      by_cases hw : w.txn.m_transact_stage = TransactStage.Writing
      · cases flag with
        | false =>
          cases ho : w.txn.m_oldest_version_not_persisted with
          | none =>
            have hc := (ccar_cases false w hA hw).1 rfl ho
            rw [hc] at hok
            simp only [Except.ok.injEq, Prod.mk.injEq] at hok
            obtain ⟨hw2, hv⟩ := hok
            subst hv
            subst hw2
            refine ⟨?_, by simp [newLock]⟩
            intro r hr
            simp only [newLock] at hr ⊢
            have h2 := h.2
            simp at hr
            subst hr
            omega
          | some r0 =>
            have hc := (ccar_cases false w hA hw).2.1 r0 rfl ho
            rw [hc] at hok
            simp only [Except.ok.injEq, Prod.mk.injEq] at hok
            obtain ⟨hw2, hv⟩ := hok
            subst hv
            subst hw2
            refine ⟨?_, by simp [newLock]⟩
            intro r hr
            simp only [newLock] at hr ⊢
            simp at hr
            subst hr
            have h1 := h.1 r0 ho
            have h2 := h.2
            omega
        | true =>
          cases ho : w.txn.m_oldest_version_not_persisted with
          | none =>
            have hc := (ccar_cases true w hA hw).2.2.1 rfl ho
            rw [hc] at hok
            simp only [Except.ok.injEq, Prod.mk.injEq] at hok
            obtain ⟨hw2, hv⟩ := hok
            subst hv
            subst hw2
            exact ⟨fun r hr => by simp at hr, by simp [newLock]⟩
          | some r0 =>
            have hc := (ccar_cases true w hA hw).2.2.2 r0 rfl ho
            rw [hc] at hok
            simp only [Except.ok.injEq, Prod.mk.injEq] at hok
            obtain ⟨hw2, hv⟩ := hok
            subst hv
            subst hw2
            exact ⟨fun r hr => by simp at hr, by simp [newLock]⟩
      · simp [commit_and_continue_as_read, hA, hw] at hok

/-- Witness for C5 at a concrete state satisfying the invariant (retained
lock on version 0, current lock on version 1): two of the preserved
operations, instantiated. -/
theorem C5_retained_lock_invariant_witness :
    LockInv (promote_to_async wSyncing) ∧
    LockInv (async_complete_writes wSyncing) := by
  have h : LockInv wSyncing := by
    constructor
    · intro r hr
      simp [wSyncing, txn0, lockOld, lockA] at hr
      subst hr
      decide
    · decide
  exact ⟨(C5_retained_lock_invariant wSyncing h).1,
         (C5_retained_lock_invariant wSyncing h).2.1⟩

end RealmTxn

namespace CowWalk

/-!
Embedding of `NodeTree::trv` and `Transaction::cow_outliers`
(transaction.cpp:876-969). A storage node (`realm::Array`) is modelled as an
arena-free inductive tree: each node carries its `is_read_only()` flag, its
`get_ref()`, its `get_byte_size()`, its `has_refs()` header flag, and its
slots. A slot holds either a value that is zero or odd (never recursed into)
or a nonzero even value, i.e. a reference to a child node. `copy_on_write()`
mutates only the node itself (it stops being read-only); within a single walk
no node is visited twice, so the walk state — remaining work budget, the list
of refs copied (in order; `m_moved` is its length) and the `progress`
vector — fully captures the observable behaviour of one call.
-/

mutual

/-- A storage node: read-only flag, ref, byte size, has-refs flag, slots. -/
inductive Node where
  | mk : Bool → Nat → Nat → Bool → Slots → Node

/-- The slots of a node: each is a scalar (zero or odd value, skipped by the
walk) or a reference to a child node (nonzero even value). -/
inductive Slots where
  | nil : Slots
  | scalar : Slots → Slots
  | ref : Node → Slots → Slots

end

/-- `Array::is_read_only()`. -/
def Node.is_read_only : Node → Bool
  | Node.mk ro _ _ _ _ => ro

/-- `Array::get_ref()`. -/
def Node.get_ref : Node → Nat
  | Node.mk _ r _ _ _ => r

/-- `Array::get_byte_size()`. -/
def Node.get_byte_size : Node → Nat
  | Node.mk _ _ bs _ _ => bs

/-- `Array::has_refs()`. -/
def Node.has_refs : Node → Bool
  | Node.mk _ _ _ hr _ => hr

/-- The slots of a node. -/
def Node.slots : Node → Slots
  | Node.mk _ _ _ _ s => s

/-- `Array::size()`: the number of slots. -/
def Slots.size : Slots → Nat
  | Slots.nil => 0
  | Slots.scalar rest => rest.size + 1
  | Slots.ref _ rest => rest.size + 1

/-- The state of one `NodeTree` walk: evac limit, signed remaining work
budget (`int64_t m_work_limit`), the refs copied so far in order (`m_moved`
is its length), and the `progress` vector threaded by reference through
`trv`. -/
structure WalkSt where
  m_evac_limit : Nat
  m_work_limit : Int
  m_moved : List Nat
  progress : List Nat
deriving DecidableEq, Repr

/-- `ndx = ++progress[level]` of the traversal loop. -/
def incAt (level : Nat) (st : WalkSt) : WalkSt :=
  { st with progress := st.progress.set level (st.progress.getD level 0 + 1) }

mutual

/-- `NodeTree::trv(current_node, level, progress)` (transaction.cpp:898). -/
def trv (st : WalkSt) (nd : Node) (level : Nat) : WalkSt × Bool :=
  match nd with
  | Node.mk ro ref bs hr s =>
    if st.m_work_limit < 0 then (st, false)
    else
      let st1 :=
        if ro = true ∧ ref + bs > st.m_evac_limit then
          { st with m_moved := st.m_moved ++ [ref],
                    m_work_limit := st.m_work_limit - bs }
        else st
      if hr = true then
        let st2 := { st1 with m_work_limit := st1.m_work_limit - s.size }
        let st3 :=
          if st2.progress.length = level then
            { st2 with progress := st2.progress ++ [0] }
          else st2
        trvLoop st3 s level 0
      else (st1, true)

/-- The `while (ndx < sz)` loop of `trv`, iterating slot index `i` from the
front; slots with `i < progress[level]` were finished by an earlier,
interrupted walk and are skipped exactly as the C++ loop starts directly at
`ndx = progress[level]`. -/
def trvLoop (st : WalkSt) (s : Slots) (level : Nat) (i : Nat) : WalkSt × Bool :=
  match s with
  | Slots.nil => ({ st with progress := st.progress.take level }, true)
  | Slots.scalar rest =>
    if i < st.progress.getD level 0 then trvLoop st rest level (i + 1)
    else trvLoop (incAt level st) rest level (i + 1)
  | Slots.ref child rest =>
    if i < st.progress.getD level 0 then trvLoop st rest level (i + 1)
    else
      match trv st child (level + 1) with
      | (st2, false) => (st2, false)
      | (st2, true) => trvLoop (incAt level st2) rest level (i + 1)

end

/-- `Group::s_table_name_ndx`. Modelled from the spec: the `Group` top-array
slot constants live in `group.hpp`, which is not part of the sources; only
their distinctness and the fixed order name-tree, table-tree, history-tree
matter here. -/
def s_table_name_ndx : Nat := 0

/-- `Group::s_table_refs_ndx` (see `s_table_name_ndx`). -/
def s_table_refs_ndx : Nat := 1

/-- `Group::s_hist_ref_ndx` (see `s_table_name_ndx`). -/
def s_hist_ref_ndx : Nat := 8

/-- The forest walked by `cow_outliers`: `m_table_names`, `m_tables`, and the
history tree when `m_top.get(s_hist_ref_ndx)` is nonzero. -/
structure GroupTop where
  m_table_names : Node
  m_tables : Node
  hist : Option Node

/-- `Transaction::cow_outliers(progress, evac_limit, work_limit)`
(transaction.cpp:945). -/
def cow_outliers (g : GroupTop) (progress0 : List Nat)
    (evac_limit work_limit : Nat) : WalkSt :=
  let st : WalkSt :=
    { m_evac_limit := evac_limit, m_work_limit := Int.ofNat work_limit,
      m_moved := [], progress := progress0 }
  let st := if st.progress = [] then { st with progress := [s_table_name_ndx] } else st
  let r1 :=
    if st.progress.getD 0 0 = s_table_name_ndx then
      match trv st g.m_table_names 1 with
      | (s, false) => (s, false)
      | (s, true) =>
        ({ s with progress := s.progress.dropLast ++ [s_table_refs_ndx] }, true)
    else (st, true)
  match r1 with
  | (s, false) => s
  | (st1, true) =>
    let r2 :=
      if st1.progress.getD 0 0 = s_table_refs_ndx then
        match trv st1 g.m_tables 1 with
        | (s, false) => (s, false)
        | (s, true) =>
          ({ s with progress := s.progress.dropLast ++ [s_hist_ref_ndx] }, true)
      else (st1, true)
    match r2 with
    | (s, false) => s
    | (st2, true) =>
      let r3 :=
        match g.hist with
        | some h =>
          if st2.progress.getD 0 0 = s_hist_ref_ndx then trv st2 h 1
          else (st2, true)
        | none => (st2, true)
      match r3 with
      | (s, false) => s
      | (st3, true) => { st3 with progress := [] }

/-- `(l.set n v).take n = l.take n`: setting the resume index does not change
the prefix recorded for shallower levels. -/
theorem take_set_self (v : Nat) :
    ∀ (l : List Nat) (n : Nat), (l.set n v).take n = l.take n := by
  intro l
  induction l with
  | nil => intro n; simp
  | cons a t ih =>
    intro n
    cases n with
    | zero => simp
    | succ m => simp [List.set, List.take, ih m]

mutual

/-- The refs of the nodes `trv` copies on a complete fresh traversal of a
node, in visit (pre-)order: the node itself when it is read-only and ends
above the evac limit, then — when the node has refs — its children in slot
order. -/
def cowList (evac : Nat) (nd : Node) : List Nat :=
  match nd with
  | Node.mk ro ref bs hr s =>
    (if ro = true ∧ ref + bs > evac then [ref] else []) ++
    (if hr = true then cowListSlots evac s else [])

/-- `cowList` over a slot sequence. -/
def cowListSlots (evac : Nat) (s : Slots) : List Nat :=
  match s with
  | Slots.nil => []
  | Slots.scalar rest => cowListSlots evac rest
  | Slots.ref c rest => cowList evac c ++ cowListSlots evac rest

end

mutual

/-- The total work `trv` charges for a complete fresh traversal of a node:
the byte size of every copied node plus the slot count of every node with
refs. -/
def cost (evac : Nat) (nd : Node) : Nat :=
  match nd with
  | Node.mk ro ref bs hr s =>
    (if ro = true ∧ ref + bs > evac then bs else 0) +
    (if hr = true then s.size + costSlots evac s else 0)

/-- `cost` over a slot sequence. -/
def costSlots (evac : Nat) (s : Slots) : Nat :=
  match s with
  | Slots.nil => 0
  | Slots.scalar rest => costSlots evac rest
  | Slots.ref c rest => cost evac c + costSlots evac rest

end

mutual

/-- Every node of the tree has a positive byte size (true of every real
`realm::Array`, whose header alone is eight bytes). -/
def posSizes (nd : Node) : Bool :=
  match nd with
  | Node.mk _ _ bs _ s => decide (0 < bs) && posSizesSlots s

/-- `posSizes` over a slot sequence. -/
def posSizesSlots (s : Slots) : Bool :=
  match s with
  | Slots.nil => true
  | Slots.scalar rest => posSizesSlots rest
  | Slots.ref c rest => posSizes c && posSizesSlots rest

end

/-- Reading back the resume index just written. -/
theorem getD_set_self (l : List Nat) (n v : Nat) (h : n < l.length) :
    (l.set n v).getD n 0 = v := by
  simp [List.getD_eq_getElem?_getD, List.getElem?_set_self, h]

mutual

/-- A fresh traversal (progress recorded only up to this level) with enough
budget for the whole subtree completes it: it copies exactly the `cowList`
nodes in order, charges exactly `cost`, and restores `progress`. -/
theorem trv_full (nd : Node) : ∀ (st : WalkSt) (level : Nat),
    st.progress.length = level →
    (cost st.m_evac_limit nd : Int) ≤ st.m_work_limit →
    trv st nd level =
      ({ st with m_moved := st.m_moved ++ cowList st.m_evac_limit nd,
                 m_work_limit := st.m_work_limit - cost st.m_evac_limit nd },
       true) :=
  match nd with
  | Node.mk ro ref bs hr s => by
    intro st level hlen hbud
    rw [cost] at hbud
    have hnneg : ¬ st.m_work_limit < 0 := by
      push_cast at hbud; omega
    rw [trv, cowList, cost]
    by_cases hcow : ro = true ∧ ref + bs > st.m_evac_limit <;>
      by_cases hhr : hr = true
    · -- copied, has refs
      rw [if_pos hcow, if_pos hhr] at hbud
      simp only [if_neg hnneg, if_pos hcow, if_pos hhr, hlen,
        eq_self_iff_true, ite_true, reduceIte]
      rw [trvLoop_full s _ level 0 (by simp [hlen])
            (by simp [List.getD_append_right, hlen])
            (by push_cast at hbud ⊢; omega)]
      simp only [WalkSt.mk.injEq, Prod.mk.injEq]
      refine ⟨⟨by simp, ?_, by simp, ?_⟩, by simp⟩
      · push_cast; ring
      · rw [← hlen]
        exact List.take_left _ _
    · -- copied, no refs
      simp only [if_neg hnneg, if_pos hcow, if_neg hhr, reduceIte]
      simp
    · -- not copied, has refs
      rw [if_neg hcow, if_pos hhr] at hbud
      simp only [if_neg hnneg, if_neg hcow, if_pos hhr, hlen,
        eq_self_iff_true, ite_true, reduceIte]
      rw [trvLoop_full s _ level 0 (by simp [hlen])
            (by simp [List.getD_append_right, hlen])
            (by push_cast at hbud ⊢; omega)]
      simp only [WalkSt.mk.injEq, Prod.mk.injEq]
      refine ⟨⟨by simp, ?_, by simp, ?_⟩, by simp⟩
      · push_cast; ring
      · rw [← hlen]
        exact List.take_left _ _
    · -- not copied, no refs
      simp only [if_neg hnneg, if_neg hcow, if_neg hhr, reduceIte]
      simp

/-- The traversal loop, entered at the slot its resume index points to, with
enough budget for all remaining children, completes: it copies exactly the
children `cowList`s in slot order, charges exactly their `cost`s, and pops
`progress` back to the enclosing level. -/
theorem trvLoop_full (s : Slots) : ∀ (st : WalkSt) (level i : Nat),
    st.progress.length = level + 1 →
    st.progress.getD level 0 = i →
    (costSlots st.m_evac_limit s : Int) ≤ st.m_work_limit →
    trvLoop st s level i =
      ({ st with m_moved := st.m_moved ++ cowListSlots st.m_evac_limit s,
                 m_work_limit := st.m_work_limit - costSlots st.m_evac_limit s,
                 progress := st.progress.take level },
       true) :=
  match s with
  | Slots.nil => by
    intro st level i hlen hpos hbud
    rw [trvLoop]
    simp [cowListSlots, costSlots]
  | Slots.scalar rest => by
    intro st level i hlen hpos hbud
    rw [trvLoop]
    simp only [incAt, hpos, lt_self_iff_false, if_false, reduceIte]
    rw [trvLoop_full rest _ level (i + 1) (by simp [hlen])
          (getD_set_self _ _ _ (by omega))
          (by simpa [costSlots] using hbud)]
    simp [costSlots, cowListSlots, take_set_self]
  | Slots.ref child rest => by
    intro st level i hlen hpos hbud
    rw [trvLoop]
    simp only [incAt, hpos, lt_self_iff_false, if_false, reduceIte]
    rw [costSlots] at hbud
    rw [trv_full child st (level + 1) hlen (by push_cast at hbud ⊢; omega)]
    simp only []
    rw [trvLoop_full rest _ level (i + 1)
          (by simp [hlen])
          (by show (st.progress.set level (st.progress.getD level 0 + 1)).getD
                level 0 = i + 1
              rw [getD_set_self _ _ _ (by omega), hpos])
          (by push_cast at hbud ⊢
              omega)]
    simp only [WalkSt.mk.injEq, Prod.mk.injEq, costSlots, cowListSlots]
    refine ⟨⟨by simp, ?_, by simp, by rw [take_set_self]⟩, by simp⟩
    push_cast; ring

end

/-- The cost of the history tree, zero when absent. -/
def histCost (evac : Nat) (g : GroupTop) : Nat :=
  match g.hist with
  | some h => cost evac h
  | none => 0

/-- The refs the walk copies out of the history tree, empty when absent. -/
def histCowList (evac : Nat) (g : GroupTop) : List Nat :=
  match g.hist with
  | some h => cowList evac h
  | none => []

/-- Claim C6: `cow_outliers` visits the forest in the fixed top-level order
table-name tree, table-reference tree, then history tree (when present); a
call starting from an empty progress vector begins at the first subtree (its
copies come first in the trace), and a call whose work budget covers the whole
walk completes it and leaves the progress vector empty. -/
theorem C6_cow_outliers_fixed_order (g : GroupTop) (evac work : Nat)
    (hbud : cost evac g.m_table_names + cost evac g.m_tables +
      histCost evac g ≤ work) :
    cow_outliers g [] evac work =
      { m_evac_limit := evac,
        m_work_limit := (work : Int) - (cost evac g.m_table_names +
          cost evac g.m_tables + histCost evac g),
        m_moved := cowList evac g.m_table_names ++ cowList evac g.m_tables ++
          histCowList evac g,
        progress := [] } := by
  have h1 :
      trv { m_evac_limit := evac, m_work_limit := (work : Int),
            m_moved := [], progress := [s_table_name_ndx] } g.m_table_names 1 =
      ({ m_evac_limit := evac,
         m_work_limit := (work : Int) - cost evac g.m_table_names,
         m_moved := cowList evac g.m_table_names,
         progress := [s_table_name_ndx] }, true) :=
    trv_full _ _ _ (by simp) (by simp only [histCost] at hbud ⊢
                                 omega)
  have h2 :
      trv { m_evac_limit := evac,
            m_work_limit := (work : Int) - cost evac g.m_table_names,
            m_moved := cowList evac g.m_table_names,
            progress := [s_table_refs_ndx] } g.m_tables 1 =
      ({ m_evac_limit := evac,
         m_work_limit := (work : Int) - cost evac g.m_table_names -
           cost evac g.m_tables,
         m_moved := cowList evac g.m_table_names ++ cowList evac g.m_tables,
         progress := [s_table_refs_ndx] }, true) :=
    trv_full _ _ _ (by simp) (by simp only [histCost] at hbud ⊢
                                 omega)
  cases hh : g.hist with
  | none =>
    simp only [cow_outliers, hh, histCost, histCowList, List.getD,
      Int.ofNat_eq_coe, if_pos rfl, List.dropLast, List.get?,
      List.nil_append, h1, h2, eq_self_iff_true, ite_true, reduceIte,
      Option.getD_some]
    simp only [WalkSt.mk.injEq]
    refine ⟨by simp, by push_cast; ring, by simp, by simp⟩
  | some hn =>
    have h3 :
        trv { m_evac_limit := evac,
              m_work_limit := (work : Int) - cost evac g.m_table_names -
                cost evac g.m_tables,
              m_moved := cowList evac g.m_table_names ++
                cowList evac g.m_tables,
              progress := [s_hist_ref_ndx] } hn 1 =
        ({ m_evac_limit := evac,
           m_work_limit := (work : Int) - cost evac g.m_table_names -
             cost evac g.m_tables - cost evac hn,
           m_moved := (cowList evac g.m_table_names ++
             cowList evac g.m_tables) ++ cowList evac hn,
           progress := [s_hist_ref_ndx] }, true) :=
      trv_full _ _ _ (by simp)
        (by simp only [histCost, hh] at hbud ⊢
            omega)
    simp only [cow_outliers, hh, histCost, histCowList, List.getD,
      Int.ofNat_eq_coe, if_pos rfl, List.dropLast, List.get?,
      List.nil_append, h1, h2, h3, eq_self_iff_true, ite_true, reduceIte,
      Option.getD_some]
    simp only [WalkSt.mk.injEq]
    refine ⟨by simp, by ring, by simp, by simp⟩

/-- A sample forest: a read-only table-name tree (ref 10) holding one
read-only child (ref 20) and one scalar slot, a writable table tree, and a
read-only history tree (ref 30). -/
def gW : GroupTop :=
  ⟨Node.mk true 10 4 true
     (Slots.ref (Node.mk true 20 4 false Slots.nil) (Slots.scalar Slots.nil)),
   Node.mk false 5 4 false Slots.nil,
   some (Node.mk true 30 2 false Slots.nil)⟩

/-- Witness for C6: on `gW` with evac limit 0 the full walk costs 12 units,
copies refs 10, 20, 30 in the fixed order and clears `progress`. -/
theorem C6_cow_outliers_fixed_order_witness :
    cow_outliers gW [] 0 12 =
      { m_evac_limit := 0, m_work_limit := 0, m_moved := [10, 20, 30],
        progress := [] } := by
  have h := C6_cow_outliers_fixed_order gW 0 12 (by decide)
  rw [h]
  decide

/-- With a negative budget the walk aborts immediately, leaving the whole
state untouched. -/
theorem trv_neg (st : WalkSt) (nd : Node) (level : Nat)
    (h : st.m_work_limit < 0) : trv st nd level = (st, false) := by
  cases nd
  rw [trv]
  simp [h]

/-- With a negative budget the traversal loop never copies anything and never
spends budget (it only skips scalar slots and aborts at the first child). -/
theorem trvLoop_neg (s : Slots) : ∀ (st : WalkSt) (level i : Nat),
    st.m_work_limit < 0 →
    (trvLoop st s level i).1.m_moved = st.m_moved ∧
    (trvLoop st s level i).1.m_work_limit = st.m_work_limit :=
  match s with
  | Slots.nil => by
    intro st level i h
    rw [trvLoop]
    simp
  | Slots.scalar rest => by
    intro st level i h
    rw [trvLoop]
    by_cases hc : i < st.progress.getD level 0 <;>
      simp only [hc, if_true, if_false, reduceIte]
    · exact trvLoop_neg rest st level (i + 1) h
    · have hr := trvLoop_neg rest (incAt level st) level (i + 1)
        (by simpa [incAt] using h)
      simpa [incAt] using hr
  | Slots.ref child rest => by
    intro st level i h
    rw [trvLoop]
    by_cases hc : i < st.progress.getD level 0 <;>
      simp only [hc, if_true, if_false, reduceIte]
    · exact trvLoop_neg rest st level (i + 1) h
    · rw [trv_neg st child (level + 1) h]
      exact ⟨rfl, rfl⟩

/-- With a budget that is already ≤ 0 and positive byte sizes everywhere,
one `trv` call either copies nothing (at most skimming slot counts off the
budget) or copies exactly one node — and in the latter case the budget has
gone strictly negative. -/
theorem trv_zero (st : WalkSt) (nd : Node) (level : Nat)
    (hp : posSizes nd = true) (hz : st.m_work_limit ≤ 0) :
    ((trv st nd level).1.m_moved = st.m_moved ∧
     (trv st nd level).1.m_work_limit ≤ st.m_work_limit) ∨
    ((trv st nd level).1.m_moved.length = st.m_moved.length + 1 ∧
     (trv st nd level).1.m_work_limit < 0) := by
  cases nd with
  | mk ro ref bs hr s =>
    rw [posSizes] at hp
    simp only [Bool.and_eq_true, decide_eq_true_eq] at hp
    obtain ⟨hbs, hps⟩ := hp
    by_cases hneg : st.m_work_limit < 0
    · rw [trv_neg _ _ _ hneg]
      exact Or.inl ⟨rfl, le_refl _⟩
    · have hz0 : st.m_work_limit = 0 := le_antisymm hz (not_lt.mp hneg)
      rw [trv]
      simp only [hneg, if_false, reduceIte]
      by_cases hcow : ro = true ∧ ref + bs > st.m_evac_limit
      · -- the root is copied; the budget is now strictly negative
        simp only [if_pos hcow]
        by_cases hhr : hr = true
        · simp only [if_pos hhr]
          by_cases hpl :
              st.progress.length = level <;>
            simp only [hpl, eq_self_iff_true, ite_true, ite_false, if_true,
              if_false, reduceIte] <;>
            · rcases trvLoop_neg s _ level 0
                (show (⟨st.m_evac_limit, st.m_work_limit - ↑bs - ↑s.size,
                       st.m_moved ++ [ref], _⟩ : WalkSt).m_work_limit < 0 by
                  simp only
                  omega)
                with ⟨hm, hw⟩
              right
              rw [hm, hw]
              constructor
              · show (st.m_moved ++ [ref]).length = st.m_moved.length + 1
                simp
              · show st.m_work_limit - (bs : Int) - (s.size : Int) < 0
                omega
        · simp only [if_neg hhr]
          right
          constructor
          · show (st.m_moved ++ [ref]).length = st.m_moved.length + 1
            simp
          · show st.m_work_limit - (bs : Int) < 0
            omega
      · -- the root is not copied; nothing can be copied below it
        simp only [if_neg hcow]
        by_cases hhr : hr = true
        · simp only [if_pos hhr]
          cases s with
          | nil =>
            by_cases hpl : st.progress.length = level <;>
              simp only [hpl, eq_self_iff_true, ite_true, ite_false, if_true,
                if_false, reduceIte] <;>
              · rw [trvLoop]
                exact Or.inl ⟨rfl, by simp [Slots.size]⟩
          | scalar rest =>
            by_cases hpl : st.progress.length = level <;>
              simp only [hpl, eq_self_iff_true, ite_true, ite_false, if_true,
                if_false, reduceIte] <;>
              · rcases trvLoop_neg (Slots.scalar rest) _ level 0
                  (show (⟨st.m_evac_limit,
                         st.m_work_limit - ↑(Slots.scalar rest).size,
                         st.m_moved, _⟩ : WalkSt).m_work_limit < 0 by
                    simp only [Slots.size]
                    push_cast
                    omega)
                  with ⟨hm, hw⟩
                left
                rw [hm, hw]
                constructor
                · show st.m_moved = st.m_moved
                  rfl
                · show st.m_work_limit - ((Slots.scalar rest).size : Int) ≤
                    st.m_work_limit
                  omega
          | ref child rest =>
            by_cases hpl : st.progress.length = level <;>
              simp only [hpl, eq_self_iff_true, ite_true, ite_false, if_true,
                if_false, reduceIte] <;>
              · rcases trvLoop_neg (Slots.ref child rest) _ level 0
                  (show (⟨st.m_evac_limit,
                         st.m_work_limit - ↑(Slots.ref child rest).size,
                         st.m_moved, _⟩ : WalkSt).m_work_limit < 0 by
                    simp only [Slots.size]
                    push_cast
                    omega)
                  with ⟨hm, hw⟩
                left
                rw [hm, hw]
                constructor
                · show st.m_moved = st.m_moved
                  rfl
                · show st.m_work_limit - ((Slots.ref child rest).size : Int) ≤
                    st.m_work_limit
                  omega
        · simp [if_neg hhr]

/-- Zero-budget bound: the budget is never positive, at most one node has
been copied, and once one has, the budget is strictly negative. -/
def ZB (st : WalkSt) : Prop :=
  st.m_work_limit ≤ 0 ∧ st.m_moved.length ≤ 1 ∧
  (st.m_moved.length = 1 → st.m_work_limit < 0)

/-- `ZB` only looks at budget and copies, never at `progress`. -/
theorem ZB_progress {st : WalkSt} (h : ZB st) (p : List Nat) :
    ZB { st with progress := p } :=
  ⟨h.1, h.2.1, h.2.2⟩

/-- One `trv` call preserves the zero-budget bound. -/
theorem ZB_step (st : WalkSt) (nd : Node) (level : Nat)
    (hp : posSizes nd = true) (hz : ZB st) : ZB (trv st nd level).1 := by
  by_cases hneg : st.m_work_limit < 0
  · rw [trv_neg st nd level hneg]
    exact hz
  · rcases trv_zero st nd level hp hz.1 with ⟨hm, hw⟩ | ⟨hm, hw⟩
    · refine ⟨le_trans hw hz.1, ?_, ?_⟩
      · rw [hm]; exact hz.2.1
      · intro h1
        rw [hm] at h1
        exact absurd (hz.2.2 h1) hneg
    · refine ⟨le_of_lt hw, ?_, fun _ => hw⟩
      by_cases h1 : st.m_moved.length = 1
      · exact absurd (hz.2.2 h1) hneg
      · have := hz.2.1
        omega

/-- Claim C4 (amended): with a work budget of zero and positive node byte
sizes, the compaction walk performs at most one copy-on-write operation in
total (it is not guaranteed to perform zero, and `progress` is left at the
position where the walk stopped, not necessarily the start). -/
theorem C4_zero_budget_walk (g : GroupTop) (evac : Nat)
    (h1 : posSizes g.m_table_names = true)
    (h2 : posSizes g.m_tables = true)
    (h3 : ∀ hn, g.hist = some hn → posSizes hn = true) :
    (cow_outliers g [] evac 0).m_moved.length ≤ 1 := by
  have hist_step : ∀ st : WalkSt, ZB st →
      (match (match g.hist with
              | some h => if st.progress.getD 0 0 = s_hist_ref_ndx
                          then trv st h 1 else (st, true)
              | none => (st, true)) with
       | (s, false) => s
       | (st3, true) =>
         { m_evac_limit := st3.m_evac_limit, m_work_limit := st3.m_work_limit,
           m_moved := st3.m_moved,
           progress := ([] : List Nat) }).m_moved.length ≤ 1 := by
    intro st hzst
    cases hh : g.hist with
    | none => exact hzst.2.1
    | some hn =>
      simp only [hh]
      by_cases hc3 : st.progress.getD 0 0 = s_hist_ref_ndx
      · rw [if_pos hc3]
        rcases heq3 : trv st hn 1 with ⟨s3, b3⟩
        have z3 : ZB s3 := by
          have h := ZB_step st hn 1 (h3 hn hh) hzst
          rw [heq3] at h
          exact h
        cases b3 with
        | false => exact z3.2.1
        | true => exact z3.2.1
      · rw [if_neg hc3]
        exact hzst.2.1
  unfold cow_outliers
  simp only [Int.ofNat_eq_coe, Nat.cast_zero, List.getD, List.get?,
    Option.getD_some, eq_self_iff_true, ite_true, if_pos rfl, reduceIte]
  have hz0 :
      ZB { m_evac_limit := evac, m_work_limit := 0, m_moved := [],
           progress := [s_table_name_ndx] } := ⟨by simp, by simp, by simp⟩
  rcases heq1 :
      trv { m_evac_limit := evac, m_work_limit := 0, m_moved := [],
            progress := [s_table_name_ndx] } g.m_table_names 1
    with ⟨s1, b1⟩
  have z1 : ZB s1 := by
    have h := ZB_step _ g.m_table_names 1 h1 hz0
    rw [heq1] at h
    exact h
  cases b1 with
  | false => exact z1.2.1
  | true =>
    dsimp only
    have z1b :
        ZB { m_evac_limit := s1.m_evac_limit, m_work_limit := s1.m_work_limit,
             m_moved := s1.m_moved,
             progress := s1.progress.dropLast ++ [s_table_refs_ndx] } :=
      ZB_progress z1 _
    by_cases hc2 : (((s1.progress.dropLast ++ [s_table_refs_ndx]).get? 0).getD
        0) = s_table_refs_ndx
    · rw [if_pos hc2]
      rcases heq2 :
          trv { m_evac_limit := s1.m_evac_limit,
                m_work_limit := s1.m_work_limit, m_moved := s1.m_moved,
                progress := s1.progress.dropLast ++ [s_table_refs_ndx] }
            g.m_tables 1
        with ⟨s2, b2⟩
      have z2 : ZB s2 := by
        have h := ZB_step _ g.m_tables 1 h2 z1b
        rw [heq2] at h
        exact h
      cases b2 with
      | false => exact z2.2.1
      | true =>
        dsimp only
        exact hist_step _ (ZB_progress z2 _)
    · rw [if_neg hc2]
      dsimp only
      exact hist_step _ z1b

/-- A sample forest whose table-name tree is one read-only leaf (ref 100,
8 bytes) and whose remaining trees need no copying. -/
def gEx : GroupTop :=
  ⟨Node.mk true 100 8 false Slots.nil, Node.mk false 0 8 false Slots.nil, none⟩

/-- Claim C4 fails on the code: on `gEx` with evac limit 0, the walk with a
work budget of zero still performs one copy-on-write (the budget check is
`m_work_limit < 0`, so the first node is processed before exhaustion is
noticed), and it leaves `progress` at `[s_table_refs_ndx]` — the second
subtree — rather than at the very start. -/
theorem C4_counterexample :
    (cow_outliers gEx [] 0 0).m_moved = [100] ∧
    (cow_outliers gEx [] 0 0).progress = [s_table_refs_ndx] := by
  decide

/-- Witness for C4 (amended) at `gEx`: all byte sizes are positive and the
zero-budget walk copies at most one node. -/
theorem C4_zero_budget_walk_witness :
    (cow_outliers gEx [] 0 0).m_moved.length ≤ 1 :=
  C4_zero_budget_walk gEx 0 (by decide) (by decide)
    (fun hn h => by simp [gEx] at h)

end CowWalk

namespace Repl

/-!
Embedding of `Transaction::replicate` (transaction.cpp:599) and the helpers
`get_col_info`, `generate_properties_for_obj`, `add_list_to_repl` and
`add_dictionary_to_repl` (transaction.cpp:32-153). A table is modelled by its
name, embedded/public flags, the name of its primary-key column (when it has
one), its full column list and its objects; an object carries per-column
values. A `Mixed` value is a scalar or a nested list/dictionary. The
replication sink (`Replication& repl`) is modelled as the emitted operation
trace, in call order; `dest->commit_and_continue_writing()` appears as a
`commit_boundary` op. Scope note: links into embedded tables
(`update_embedded` in the source) are outside this model — the column values
here are scalars and nested collections, which is the path the claim
exercises; embedded tables themselves (as classes) are modelled.
-/

mutual

/-- A `Mixed` value: a scalar, or a nested collection. -/
inductive Val where
  | scalar : Int → Val
  | vlist : ValList → Val
  | vdict : ValDict → Val

/-- The elements of a list value. -/
inductive ValList where
  | nil : ValList
  | cons : Val → ValList → ValList

/-- The key-value pairs of a dictionary value, in iteration order. -/
inductive ValDict where
  | nil : ValDict
  | cons : String → Val → ValDict → ValDict

end

/-- What a column stores: plain field, list, set or dictionary
(`ColKey::is_list` / `is_set` / `is_dictionary`). -/
inductive ColKind where
  | field
  | list
  | set
  | dict
deriving DecidableEq, Repr

/-- A column: its name and kind. -/
structure Column where
  name : String
  kind : ColKind

/-- An object: its key, its primary-key value (the value stored in the
primary-key column, read by `create_object_with_primary_key`), and one value
per column, aligned with the table's column list. -/
structure Obj where
  key : Nat
  pk : Int
  vals : List Val

/-- A table: name, embedded and public flags, the name of its primary-key
column when one exists, all its columns, and its objects. -/
structure Table where
  name : String
  is_embedded : Bool
  is_public : Bool
  pk : Option String
  cols : List Column
  objs : List Obj

/-- The calls `replicate` makes on the replication sink and the destination,
in order. A `none` payload stands for the collection-marker
`Mixed{0, CollectionType}` values the source inserts before recursing. -/
inductive ReplOp where
  | add_class_with_primary_key (table : String) (pkName : String)
  | add_class (table : String)
  | insert_column (table : String) (col : String)
  | create_object_with_primary_key (table : String) (key : Nat) (pk : Int)
  | list_clear
  | list_insert (ndx : Nat) (payload : Option Int)
  | set_insert (ndx : Nat) (payload : Option Int)
  | dictionary_insert (ndx : Nat) (key : String) (payload : Option Int)
  | set (col : String) (payload : Option Int)
  | commit_boundary
deriving DecidableEq, Repr

/-- The `Mixed` payload passed to the sink for a value that is not recursed
into. -/
def payload : Val → Option Int
  | Val.scalar x => some x
  | Val.vlist _ => none
  | Val.vdict _ => none

mutual

/-- `add_list_to_repl` (transaction.cpp:74): one `list_insert` per element,
recursing into nested lists and dictionaries after inserting a marker. -/
def add_list_to_repl : ValList → Nat → List ReplOp
  | ValList.nil, _ => []
  | ValList.cons v rest, n =>
    match v with
    | Val.scalar x =>
      ReplOp.list_insert n (some x) :: add_list_to_repl rest (n + 1)
    | Val.vlist l =>
      ReplOp.list_insert n none ::
        (add_list_to_repl l 0 ++ add_list_to_repl rest (n + 1))
    | Val.vdict d =>
      ReplOp.list_insert n none ::
        (add_dictionary_to_repl d 0 ++ add_list_to_repl rest (n + 1))

/-- `add_dictionary_to_repl` (transaction.cpp:50). -/
def add_dictionary_to_repl : ValDict → Nat → List ReplOp
  | ValDict.nil, _ => []
  | ValDict.cons k v rest, n =>
    match v with
    | Val.scalar x =>
      ReplOp.dictionary_insert n k (some x) ::
        add_dictionary_to_repl rest (n + 1)
    | Val.vlist l =>
      ReplOp.dictionary_insert n k none ::
        (add_list_to_repl l 0 ++ add_dictionary_to_repl rest (n + 1))
    | Val.vdict d =>
      ReplOp.dictionary_insert n k none ::
        (add_dictionary_to_repl d 0 ++ add_dictionary_to_repl rest (n + 1))

end

/-- The set-column loop of `generate_properties_for_obj`
(transaction.cpp:122-129): one `set_insert` per element, no recursion. -/
def add_set_to_repl : ValList → Nat → List ReplOp
  | ValList.nil, _ => []
  | ValList.cons v rest, n =>
    ReplOp.set_insert n (payload v) :: add_set_to_repl rest (n + 1)

/-- The per-column body of `generate_properties_for_obj`
(transaction.cpp:117-151): clear and refill a list column, insert set
elements, insert dictionary entries, or `set` a plain field — writing a
collection marker and recursing when the field holds a nested collection. -/
def col_ops (c : Column) (v : Val) : List ReplOp :=
  match c.kind with
  | ColKind.list =>
    ReplOp.list_clear ::
      (match v with
       | Val.vlist l => add_list_to_repl l 0
       | _ => [])
  | ColKind.set =>
    (match v with
     | Val.vlist l => add_set_to_repl l 0
     | _ => [])
  | ColKind.dict =>
    (match v with
     | Val.vdict d => add_dictionary_to_repl d 0
     | _ => [])
  | ColKind.field =>
    (match v with
     | Val.scalar x => [ReplOp.set c.name (some x)]
     | Val.vlist l => ReplOp.set c.name none :: add_list_to_repl l 0
     | Val.vdict d => ReplOp.set c.name none :: add_dictionary_to_repl d 0)

/-- `generate_properties_for_obj` (transaction.cpp:98): the column loop. -/
def generate_properties_for_obj : List Column → List Val → List ReplOp
  | [], _ => []
  | _ :: _, [] => []
  | c :: cs, v :: vs => col_ops c v ++ generate_properties_for_obj cs vs

/-- The class-creation loop of `replicate` (transaction.cpp:609-629): a
non-embedded table must have a primary key named `_id`; embedded tables are
added as embedded classes with no primary-key requirement. -/
def create_classes : List Table → Except RealmTxn.Err (List ReplOp)
  | [] => Except.ok []
  | t :: ts =>
    if t.is_embedded = false then
      match t.pk with
      | none =>
        Except.error (RealmTxn.Err.BrokenInvariant
          "Class must have a primary key")
      | some pkName =>
        if pkName ≠ "_id" then
          Except.error (RealmTxn.Err.BrokenInvariant
            "Primary key of class must be named _id")
        else
          match create_classes ts with
          | Except.ok ops =>
            Except.ok (ReplOp.add_class_with_primary_key t.name pkName :: ops)
          | Except.error e => Except.error e
    else
      match create_classes ts with
      | Except.ok ops => Except.ok (ReplOp.add_class t.name :: ops)
      | Except.error e => Except.error e

/-- The column-creation loop of `replicate` (transaction.cpp:631-641): every
column except the primary-key column. -/
def create_columns : List Table → List ReplOp
  | [] => []
  | t :: ts =>
    (t.cols.filter (fun c => decide (t.pk ≠ some c.name))).map
      (fun c => ReplOp.insert_column t.name c.name) ++ create_columns ts

/-- `number_of_objects_to_create_before_committing`
(transaction.cpp:644-648): 100 in debug builds, 1000 otherwise. -/
def number_of_objects_to_create_before_committing (debug : Bool) : Nat :=
  if debug then 100 else 1000

/-- The per-table object loop of `replicate` (transaction.cpp:656-665),
threading the countdown `n`; when it hits zero the destination commits and
the countdown resets. -/
def objs_for_table (N : Nat) (t : Table) : List Obj → Nat → List ReplOp × Nat
  | [], n => ([], n)
  | o :: os, n =>
    let ops := ReplOp.create_object_with_primary_key t.name o.key o.pk ::
      generate_properties_for_obj t.cols o.vals
    if n - 1 = 0 then
      let r := objs_for_table N t os N
      (ops ++ ReplOp.commit_boundary :: r.1, r.2)
    else
      let r := objs_for_table N t os (n - 1)
      (ops ++ r.1, r.2)

/-- The object-creation phase of `replicate` (transaction.cpp:650-666):
non-embedded public tables in order, the countdown threaded across tables. -/
def create_objects (N : Nat) : List Table → Nat → List ReplOp
  | [], _ => []
  | t :: ts, n =>
    if t.is_embedded = true then create_objects N ts n
    else
      let r := objs_for_table N t t.objs n
      r.1 ++ create_objects N ts r.2

/-- `Transaction::replicate(dest, repl)` (transaction.cpp:599): classes for
every public table, then columns, then a destination commit, then the objects
in batches. -/
def replicate (tables : List Table) (debug : Bool) :
    Except RealmTxn.Err (List ReplOp) :=
  let pub := tables.filter (fun t => t.is_public)
  match create_classes pub with
  | Except.error e => Except.error e
  | Except.ok classOps =>
    Except.ok (classOps ++ create_columns pub ++ ReplOp.commit_boundary ::
      create_objects (number_of_objects_to_create_before_committing debug) pub
        (number_of_objects_to_create_before_committing debug))

/-- The acceptance condition of the class-creation phase: embedded tables
are always accepted; non-embedded tables need a primary key named `_id`. -/
def pk_ok (t : Table) : Bool :=
  t.is_embedded ||
    (match t.pk with
     | some pkName => pkName == "_id"
     | none => false)

/-- The class trace, table by table (the error-free shape of
`create_classes`). -/
def class_ops : List Table → List ReplOp
  | [] => []
  | t :: ts =>
    (if t.is_embedded = true then ReplOp.add_class t.name
     else ReplOp.add_class_with_primary_key t.name
       (match t.pk with | some p => p | none => "")) :: class_ops ts

/-- When every table passes the primary-key check, class creation succeeds
and emits one class op per table, in order. -/
theorem create_classes_ok : ∀ ts : List Table,
    (∀ t ∈ ts, pk_ok t = true) →
    create_classes ts = Except.ok (class_ops ts) := by
  intro ts
  induction ts with
  | nil => intro _; rfl
  | cons t ts ih =>
    intro h
    have ht := h t (List.mem_cons_self t ts)
    have hts := ih (fun x hx => h x (List.mem_cons_of_mem t hx))
    rw [create_classes, class_ops]
    cases he : t.is_embedded with
    | true => simp [he, hts]
    | false =>
      rw [pk_ok, he] at ht
      cases hp : t.pk with
      | none => rw [hp] at ht; simp at ht
      | some pkName =>
        rw [hp] at ht
        simp only [Bool.false_or, beq_iff_eq] at ht
        simp [he, hp, ht, hts]

/-- Class creation succeeds exactly when every table passes the primary-key
check. -/
theorem create_classes_isOk_iff : ∀ ts : List Table,
    (create_classes ts).isOk = true ↔ ∀ t ∈ ts, pk_ok t = true := by
  intro ts
  induction ts with
  | nil => simp [create_classes, Except.isOk, Except.toBool]
  | cons t ts ih =>
    rw [create_classes]
    constructor
    · intro h
      intro x hx
      rcases List.mem_cons.mp hx with hx | hx
      · subst hx
        cases he : x.is_embedded with
        | true => simp [pk_ok, he]
        | false =>
          rw [he] at h
          simp only [Bool.true_eq_false, eq_self_iff_true, if_true, if_false,
            ite_true, ite_false, reduceIte] at h
          cases hp : x.pk with
          | none => rw [hp] at h; simp [Except.isOk, Except.toBool] at h
          | some pkName =>
            rw [hp] at h
            by_cases hn : pkName = "_id"
            · simp [pk_ok, he, hp, hn]
            · simp [hn, Except.isOk, Except.toBool] at h
      · -- tail tables: reduce to ih
        cases he : t.is_embedded with
        | true =>
          rw [he] at h
          simp only [Bool.true_eq_false, eq_self_iff_true, if_true, if_false,
            ite_true, ite_false, reduceIte] at h
          rcases hcc : create_classes ts with e | ops
          · rw [hcc] at h; simp [Except.isOk, Except.toBool] at h
          · exact (ih.mp (by simp [hcc, Except.isOk, Except.toBool])) x hx
        | false =>
          rw [he] at h
          simp only [Bool.true_eq_false, eq_self_iff_true, if_true, if_false,
            ite_true, ite_false, reduceIte] at h
          cases hp : t.pk with
          | none => rw [hp] at h; simp [Except.isOk, Except.toBool] at h
          | some pkName =>
            rw [hp] at h
            by_cases hn : pkName = "_id"
            · simp only [hn, ne_eq, not_true_eq_false, if_false,
                reduceIte] at h
              rcases hcc : create_classes ts with e | ops
              · rw [hcc] at h; simp [Except.isOk, Except.toBool] at h
              · exact (ih.mp (by simp [hcc, Except.isOk, Except.toBool])) x hx
            · simp [hn, Except.isOk, Except.toBool] at h
    · intro h
      have hcc := create_classes_ok (t :: ts) h
      rw [create_classes] at hcc
      rw [hcc]
      simp [Except.isOk, Except.toBool]

/-- The op block one created object contributes. -/
def obj_block (t : Table) (o : Obj) : List ReplOp :=
  ReplOp.create_object_with_primary_key t.name o.key o.pk ::
    generate_properties_for_obj t.cols o.vals

/-- All object blocks the walk over non-embedded public tables produces, in
order. -/
def objStream : List Table → List (List ReplOp)
  | [] => []
  | t :: ts =>
    (if t.is_embedded = true then [] else t.objs.map (obj_block t)) ++
      objStream ts

/-- The batching discipline, stated over the flat stream of object blocks: a
`commit_boundary` after every `N`-th block, threading the countdown. -/
def batchEmitC (N : Nat) : List (List ReplOp) → Nat → List ReplOp × Nat
  | [], n => ([], n)
  | b :: bs, n =>
    if n - 1 = 0 then
      let r := batchEmitC N bs N
      (b ++ ReplOp.commit_boundary :: r.1, r.2)
    else
      let r := batchEmitC N bs (n - 1)
      (b ++ r.1, r.2)

/-- Per-table object creation is the batching discipline applied to that
table's blocks. -/
theorem objs_for_table_eq (N : Nat) (t : Table) : ∀ (os : List Obj) (n : Nat),
    objs_for_table N t os n = batchEmitC N (os.map (obj_block t)) n := by
  intro os
  induction os with
  | nil => intro n; rfl
  | cons o os ih =>
    intro n
    rw [objs_for_table, List.map_cons, batchEmitC]
    by_cases hn : n - 1 = 0 <;> simp [hn, ih, obj_block]

/-- The batching discipline splits over concatenation of block streams. -/
theorem batchEmitC_append (N : Nat) : ∀ (xs ys : List (List ReplOp)) (n : Nat),
    batchEmitC N (xs ++ ys) n =
      ((batchEmitC N xs n).1 ++ (batchEmitC N ys (batchEmitC N xs n).2).1,
       (batchEmitC N ys (batchEmitC N xs n).2).2) := by
  intro xs
  induction xs with
  | nil => intro ys n; simp [batchEmitC]
  | cons b bs ih =>
    intro ys n
    rw [List.cons_append, batchEmitC, batchEmitC]
    by_cases hn : n - 1 = 0 <;> simp [hn, ih]

/-- The object phase of `replicate` equals the batching discipline applied
to the flat stream of object blocks. -/
theorem create_objects_eq (N : Nat) : ∀ (ts : List Table) (n : Nat),
    create_objects N ts n = (batchEmitC N (objStream ts) n).1 := by
  intro ts
  induction ts with
  | nil => intro n; rfl
  | cons t ts ih =>
    intro n
    rw [create_objects, objStream]
    cases he : t.is_embedded with
    | true => simp [he, ih, batchEmitC]
    | false =>
      simp only [he, if_false, Bool.false_eq_true, reduceIte]
      rw [batchEmitC_append, objs_for_table_eq]
      simp [ih]

mutual

/-- Replicating a list value never commits on the destination. -/
theorem no_commit_list (l : ValList) : ∀ (n : Nat),
    ReplOp.commit_boundary ∉ add_list_to_repl l n :=
  match l with
  | ValList.nil => by
    intro n
    rw [add_list_to_repl.eq_def]
    simp
  | ValList.cons v rest => by
    intro n
    rw [add_list_to_repl.eq_def]
    cases v with
    | scalar x => simp [no_commit_list rest (n + 1)]
    | vlist l2 => simp [no_commit_list l2 0, no_commit_list rest (n + 1)]
    | vdict d2 => simp [no_commit_dict d2 0, no_commit_list rest (n + 1)]

/-- Replicating a dictionary value never commits on the destination. -/
theorem no_commit_dict (d : ValDict) : ∀ (n : Nat),
    ReplOp.commit_boundary ∉ add_dictionary_to_repl d n :=
  match d with
  | ValDict.nil => by
    intro n
    rw [add_dictionary_to_repl.eq_def]
    simp
  | ValDict.cons k v rest => by
    intro n
    rw [add_dictionary_to_repl.eq_def]
    cases v with
    | scalar x => simp [no_commit_dict rest (n + 1)]
    | vlist l2 => simp [no_commit_list l2 0, no_commit_dict rest (n + 1)]
    | vdict d2 => simp [no_commit_dict d2 0, no_commit_dict rest (n + 1)]

end

/-- Replicating a set never commits on the destination. -/
theorem no_commit_set (l : ValList) : ∀ (n : Nat),
    ReplOp.commit_boundary ∉ add_set_to_repl l n :=
  match l with
  | ValList.nil => by
    intro n
    rw [add_set_to_repl.eq_def]
    simp
  | ValList.cons v rest => by
    intro n
    rw [add_set_to_repl.eq_def]
    simp [no_commit_set rest (n + 1)]

/-- Replicating one column of one object never commits on the
destination. -/
theorem no_commit_col_ops (c : Column) (v : Val) :
    ReplOp.commit_boundary ∉ col_ops c v := by
  cases hk : c.kind <;> cases v <;>
    simp [col_ops, hk, no_commit_list, no_commit_dict, no_commit_set]

/-- Replicating one object's properties never commits on the destination. -/
theorem no_commit_props : ∀ (cols : List Column) (vals : List Val),
    ReplOp.commit_boundary ∉ generate_properties_for_obj cols vals := by
  intro cols
  induction cols with
  | nil => intro vals; rw [generate_properties_for_obj]; simp
  | cons c cs ih =>
    intro vals
    cases vals with
    | nil => rw [generate_properties_for_obj]; simp
    | cons v vs =>
      rw [generate_properties_for_obj]
      simp [ih vs, no_commit_col_ops]

/-- No block of the object stream contains a commit: commits in the object
phase come only from the batching countdown. -/
theorem objStream_no_commit : ∀ (ts : List Table),
    ∀ b ∈ objStream ts, ReplOp.commit_boundary ∉ b := by
  intro ts
  induction ts with
  | nil => intro b hb; rw [objStream] at hb; cases hb
  | cons t ts ih =>
    intro b hb
    rw [objStream] at hb
    rcases List.mem_append.mp hb with hb | hb
    · cases he : t.is_embedded with
      | true => rw [he] at hb; simp at hb
      | false =>
        rw [he] at hb
        simp only [Bool.false_eq_true, if_false, reduceIte] at hb
        rcases List.mem_map.mp hb with ⟨o, -, ho⟩
        rw [← ho, obj_block]
        simp [no_commit_props]
    · exact ih b hb

/-- The number of destination commits in a trace. -/
def countCommits (ops : List ReplOp) : Nat :=
  ops.count ReplOp.commit_boundary

/-- The batching discipline commits exactly once per `N` blocks: processing
`k` commit-free blocks starting with countdown `n` emits
`(k + (N - n)) / N` commits. -/
theorem batchEmitC_count (N : Nat) (hN : 0 < N) :
    ∀ (bs : List (List ReplOp)) (n : Nat), 1 ≤ n → n ≤ N →
    (∀ b ∈ bs, ReplOp.commit_boundary ∉ b) →
    countCommits (batchEmitC N bs n).1 = (bs.length + (N - n)) / N := by
  intro bs
  induction bs with
  | nil =>
    intro n h1 h2 _
    rw [batchEmitC]
    simp only [countCommits, List.count_nil, List.length_nil, Nat.zero_add]
    rw [Nat.div_eq_of_lt (by omega)]
  | cons b bs ih =>
    intro n h1 h2 hnc
    have hb : b.count ReplOp.commit_boundary = 0 :=
      List.count_eq_zero.mpr (hnc b (by simp))
    have hnc2 : ∀ x ∈ bs, ReplOp.commit_boundary ∉ x :=
      fun x hx => hnc x (List.mem_cons_of_mem b hx)
    rw [batchEmitC]
    by_cases hn : n - 1 = 0
    · simp only [hn, if_true, reduceIte]
      simp only [countCommits, List.count_append, List.count_cons_self,
        List.length_cons, hb, Nat.zero_add]
      have ihN := ih N hN le_rfl hnc2
      rw [countCommits] at ihN
      rw [ihN, show bs.length + 1 + (N - n) = bs.length + N from by omega,
        Nat.add_div_right _ hN, Nat.sub_self]
      simp
    · simp only [hn, if_false, reduceIte]
      simp only [countCommits, List.count_append, List.length_cons, hb,
        Nat.zero_add]
      have ihn := ih (n - 1) (by omega) (by omega) hnc2
      rw [countCommits] at ihn
      rw [ihn, show bs.length + (N - (n - 1)) = bs.length + 1 + (N - n) from
        by omega]

/-- Claim C9 fails on the code: an embedded-table definition without a
primary key is ACCEPTED (added as an embedded class), while it is the
non-embedded table lacking a primary key named `_id` that is rejected. -/
theorem C9_counterexample :
    replicate [⟨"Emb", true, true, none, [], []⟩] false =
      Except.ok [ReplOp.add_class "Emb", ReplOp.commit_boundary] ∧
    replicate [⟨"Plain", false, true, none, [], []⟩] false =
      Except.error (RealmTxn.Err.BrokenInvariant
        "Class must have a primary key") :=
  ⟨rfl, rfl⟩

/-- Claim C9 (amended): `replicate` succeeds exactly when every public
NON-embedded table has a primary key named `_id` (embedded tables are exempt);
on success the trace is the public tables' classes, then their non-primary-key
columns, then a destination commit, then the object blocks (each object's
creation followed by its scalar and collection properties) under the batching
discipline; that discipline commits after every `N`-th created object, where
`N` is smaller in debug builds. -/
theorem C9_replicate_phases (tables : List Table) (debug : Bool) :
    ((replicate tables debug).isOk = true ↔
      ∀ t ∈ tables.filter (fun x => x.is_public), pk_ok t = true) ∧
    ((∀ t ∈ tables.filter (fun x => x.is_public), pk_ok t = true) →
      replicate tables debug =
        Except.ok
          (class_ops (tables.filter (fun x => x.is_public)) ++
           create_columns (tables.filter (fun x => x.is_public)) ++
           ReplOp.commit_boundary ::
             (batchEmitC (number_of_objects_to_create_before_committing debug)
               (objStream (tables.filter (fun x => x.is_public)))
               (number_of_objects_to_create_before_committing debug)).1)) ∧
    countCommits
        (batchEmitC (number_of_objects_to_create_before_committing debug)
          (objStream (tables.filter (fun x => x.is_public)))
          (number_of_objects_to_create_before_committing debug)).1 =
      (objStream (tables.filter (fun x => x.is_public))).length /
        number_of_objects_to_create_before_committing debug ∧
    number_of_objects_to_create_before_committing true <
      number_of_objects_to_create_before_committing false := by
  have hNpos : 0 < number_of_objects_to_create_before_committing debug := by
    cases debug <;> simp [number_of_objects_to_create_before_committing]
  refine ⟨?_, ?_, ?_, by decide⟩
  · have hiff := create_classes_isOk_iff (tables.filter (fun x => x.is_public))
    rcases hcc : create_classes (tables.filter (fun x => x.is_public))
      with e | ops
    · rw [hcc] at hiff
      simp only [Except.isOk, Except.toBool, Bool.false_eq_true,
        false_iff] at hiff
      have hL : (replicate tables debug).isOk = false := by
        simp [replicate, hcc, Except.isOk, Except.toBool]
      rw [hL]
      exact iff_of_false (by simp) hiff
    · rw [hcc] at hiff
      simp only [Except.isOk, Except.toBool, true_iff] at hiff
      have hL : (replicate tables debug).isOk = true := by
        simp [replicate, hcc, Except.isOk, Except.toBool]
      rw [hL]
      exact iff_of_true rfl hiff
  · intro h
    have hcc := create_classes_ok (tables.filter (fun x => x.is_public)) h
    simp [replicate, hcc, create_objects_eq]
  · rw [batchEmitC_count (number_of_objects_to_create_before_committing debug)
        hNpos _ _ hNpos le_rfl
        (objStream_no_commit (tables.filter (fun x => x.is_public)))]
    rw [Nat.sub_self, Nat.add_zero]

/-- A sample embedded table with no primary key. -/
def tEmb : Table := ⟨"Emb", true, true, none, [], []⟩

/-- A sample public class with primary key `_id` and a list column, holding
one object. -/
def tPlain : Table :=
  ⟨"Plain", false, true, some "_id",
   [⟨"_id", ColKind.field⟩, ⟨"xs", ColKind.list⟩],
   [⟨1, 7, [Val.scalar 7, Val.vlist (ValList.cons (Val.scalar 3)
       ValList.nil)]⟩]⟩

/-- Witness for C9 (amended): the full trace replicated from `tEmb` and
`tPlain` in a debug build — classes, then columns, then the schema commit,
then the object with its properties (fewer than 100 objects, so no batching
commit). -/
theorem C9_replicate_phases_witness :
    replicate [tEmb, tPlain] true =
      Except.ok
        [ReplOp.add_class "Emb",
         ReplOp.add_class_with_primary_key "Plain" "_id",
         ReplOp.insert_column "Plain" "xs",
         ReplOp.commit_boundary,
         ReplOp.create_object_with_primary_key "Plain" 1 7,
         ReplOp.set "_id" (some 7),
         ReplOp.list_clear,
         ReplOp.list_insert 0 (some 3)] := by
  have h := (C9_replicate_phases [tEmb, tPlain] true).2.1 (by decide)
  rw [h]
  rfl

end Repl
